import Mathlib

/-! Verification of `clients/simple-hdr-video-gbm.c`.

A shallow embedding of the frame-to-buffer pipeline of the Weston client
`simple-hdr-video-gbm`: the three-slot buffer pools, the release callback,
the pixel-format mapper, the plane converter (`fill_buffer`,
`copy_420p10_to_p010`), the demux/decode pump and the redraw handler.

Conventions of the embedding.

* A pointer into a pool (`&s->buffers[i]`) is the index `i : Fin NUM_BUFFERS`;
  `NULL` is `none`.
* The storage behind a buffer object is a byte memory `Nat → Nat`, addressed
  by the byte offset from the pointer `gbm_bo_map` returns.  The converter is
  embedded as the list of byte stores it performs, in program order; the
  memory after a conversion is that list applied to the memory before it.
* A `uint16_t` access is two byte accesses, low byte first (the client runs
  on little-endian hosts).
* Calls into Wayland, GBM and libav whose result the program cannot predict
  (mapping a buffer, allocating a frame, the decoder) are inputs of the
  embedding; calls made for their effect are recorded as `Event`s.
* `int` quantities that are sizes (heights, line sizes, strides) are `Nat`:
  the arithmetic the claims are about never leaves the range of `int`.
-/

set_option linter.dupNamespace false

namespace SimpleHdrVideo

/-! ## Constants -/

/-- The number of slots of a pool, `#define NUM_BUFFERS 3`. -/
abbrev NUM_BUFFERS : Nat := 3

/-- The macro `fourcc_code(a, b, c, d)` of `drm_fourcc.h`:
`a | b << 8 | c << 16 | d << 24` as a `__u32`. -/
def fourcc_code (a b c d : Char) : Nat :=
  (a.toNat ||| (b.toNat <<< 8) ||| (c.toNat <<< 16) ||| (d.toNat <<< 24)) % 2 ^ 32

/-- `DRM_FORMAT_P010`, as the source defines it. -/
def DRM_FORMAT_P010 : Nat := fourcc_code 'P' '0' '1' '0'

/-- `DRM_FORMAT_P012`, as the source defines it. -/
def DRM_FORMAT_P012 : Nat := fourcc_code 'P' '0' '1' '2'

/-- `DRM_FORMAT_P016`, as the source defines it. -/
def DRM_FORMAT_P016 : Nat := fourcc_code 'P' '0' '1' '6'

/-- `DRM_FORMAT_YUV420` of `drm_fourcc.h`. -/
def DRM_FORMAT_YUV420 : Nat := fourcc_code 'Y' 'U' '1' '2'

/-- `DRM_FORMAT_NV12` of `drm_fourcc.h`. -/
def DRM_FORMAT_NV12 : Nat := fourcc_code 'N' 'V' '1' '2'

/-- `DRM_FORMAT_ARGB8888` of `drm_fourcc.h`. -/
def DRM_FORMAT_ARGB8888 : Nat := fourcc_code 'A' 'R' '2' '4'

/-- `GBM_FORMAT_GR88` of `gbm.h`. -/
def GBM_FORMAT_GR88 : Nat := fourcc_code 'G' 'R' '8' '8'

/-- `GBM_FORMAT_ARGB8888` of `gbm.h`. -/
def GBM_FORMAT_ARGB8888 : Nat := fourcc_code 'A' 'R' '2' '4'

/-- `GBM_FORMAT_XRGB8888` of `gbm.h`. -/
def GBM_FORMAT_XRGB8888 : Nat := fourcc_code 'X' 'R' '2' '4'

/-- An `int` value converted to `uint32_t`. -/
def to_uint32 (x : Int) : Nat := (x % 2 ^ 32).toNat

/-- A `uint32_t` value converted to `int` (two's complement). -/
def to_int32 (n : Nat) : Int :=
  if n % 2 ^ 32 < 2 ^ 31 then (n % 2 ^ 32 : Nat) else (n % 2 ^ 32 : Nat) - 2 ^ 32

/-- The decoder pixel formats (`enum AVPixelFormat` of libavutil): the seven
constants the source names, and every other value of the enumeration. -/
inductive AVPixelFormat
  | AV_PIX_FMT_YUV420P
  | AV_PIX_FMT_YUV420P10BE
  | AV_PIX_FMT_YUV420P10LE
  | AV_PIX_FMT_YUV420P12BE
  | AV_PIX_FMT_YUV420P12LE
  | AV_PIX_FMT_YUV420P16BE
  | AV_PIX_FMT_YUV420P16LE
  | other (tag : Nat)
  deriving DecidableEq

/-! ## Data model -/

/-- The `AVRational` of libavutil. -/
structure AVRational where
  num : Int
  den : Int
  deriving DecidableEq

/-- The fields of `AVMasteringDisplayMetadata` the redraw handler reads. -/
structure AVMasteringDisplayMetadata where
  display_primaries : Fin 3 → Fin 2 → AVRational
  white_point : Fin 2 → AVRational
  min_luminance : AVRational
  max_luminance : AVRational
  has_primaries : Int
  has_luminance : Int

/-- The `AVContentLightMetadata` of libavutil. -/
structure AVContentLightMetadata where
  MaxCLL : Nat
  MaxFALL : Nat
  deriving DecidableEq

/-- The fields of an `AVFrame` the client reads.  `data p k` is byte `k` of
plane `p` (`frame->data[p][k]`); the two side-data entries are what
`av_frame_get_side_data` returns for `AV_FRAME_DATA_CONTENT_LIGHT_LEVEL` and
`AV_FRAME_DATA_MASTERING_DISPLAY_METADATA`. -/
structure AVFrame where
  data : Nat → Nat → Nat
  linesize : Nat → Nat
  width : Nat
  height : Nat
  content_light : Option AVContentLightMetadata
  mastering_display : Option AVMasteringDisplayMetadata

/-- A byte memory, addressed by byte offset. -/
abbrev Mem := Nat → Nat

/-- The record `struct buffer`.  `mem` is the storage of the buffer object
`bo`, which `mmap` points to while it is mapped. -/
structure buffer where
  buffer : Option Nat
  busy : Int
  drm_fd : Int
  gem_handle : Nat
  dmabuf_fd : Int
  mmap : Option Nat
  width : Nat
  height : Nat
  bpp : Int
  stride : Nat
  format : Int
  prev_frame : Option AVFrame
  gbm : Option Nat
  cpp : Int
  bo : Option Nat
  mem : Mem

/-- The fields of an `AVPacket` the client reads. -/
structure AVPacket where
  size : Int
  stream_index : Int
  payload : Nat
  deriving DecidableEq

/-- The decoder behind `AVCodecContext`.  `state` is its internal state;
`send` is `avcodec_send_packet` and `receive` is `avcodec_receive_frame`,
each giving the next state and the returned code (`receive` also the frame
it fills in). -/
structure AVCodecContext where
  state : Nat
  send : Nat → AVPacket → Nat × Int
  receive : Nat → Nat × Int × AVFrame
  width : Nat
  height : Nat
  pix_fmt : AVPixelFormat

/-- The record `struct video`.  `fmt_ctx` is the demuxer: the packets
`av_read_frame` has yet to deliver. -/
structure video where
  fmt_ctx : List AVPacket
  codec : AVCodecContext
  pkt : AVPacket
  stream_index : Int
  buffers : Fin NUM_BUFFERS → buffer
  prev_buffer : Option (Fin NUM_BUFFERS)

/-- The pool of `struct subtitle`. -/
structure subtitle where
  width : Int
  height : Int
  time : Nat
  buffers : Fin NUM_BUFFERS → buffer
  prev_buffer : Option (Fin NUM_BUFFERS)

/-- The record `struct app` (the toolkit handles `display`, `window` and
`widget` are left out: the pipeline never inspects them). -/
structure app where
  video : video
  subtitle : Option subtitle
  colorspace : Option Nat
  hdr_metadata : Option Nat
  hdr_surface : Option Nat
  dmabuf : Option Nat

/-- The messages the pipeline prints on `stderr`. -/
inductive Diag
  | no_more_frames
  | unable_to_mmap_buffer
  | failed_to_fill_buffer
  deriving DecidableEq

/-- The calls the pipeline makes for their effect, in program order. -/
inductive Event
  | stderr (msg : Diag)
  | assert_failed
  | get_hdr_surface (handle : Nat)
  | hdr_surface_set (handle : Option Nat) (max_cll max_fall : Int)
  | hdr_surface_set_eotf (handle : Option Nat)
  | hdr_surface_destroy (handle : Nat)
  | attach (wlbuffer : Option Nat)
  | damage (width height : Nat)
  | commit
  | schedule_redraw
  deriving DecidableEq

/-! ## Buffer pool -/

/-- The loop of `video_next_buffer` and of `subtitle_next_buffer`, from
index `i` on, with `fuel` iterations left:
`for (; i < NUM_BUFFERS; i++) if (!buffers[i].busy) return &buffers[i];`
and `return NULL` after it. -/
def next_buffer_loop (buffers : Fin NUM_BUFFERS → buffer) : Nat → Nat → Option (Fin NUM_BUFFERS)
  | 0, _ => none
  | fuel + 1, i =>
    if h : i < NUM_BUFFERS then
      if (buffers ⟨i, h⟩).busy = 0 then some ⟨i, h⟩
      else next_buffer_loop buffers fuel (i + 1)
    else none

/-- The function `video_next_buffer`: the returned pointer, and the pool as
the call leaves it. -/
def video_next_buffer (s : video) : Option (Fin NUM_BUFFERS) × video :=
  (next_buffer_loop s.buffers NUM_BUFFERS 0, s)

/-- The function `subtitle_next_buffer`: the returned pointer, and the pool
as the call leaves it. -/
def subtitle_next_buffer (sub : subtitle) : Option (Fin NUM_BUFFERS) × subtitle :=
  (next_buffer_loop sub.buffers NUM_BUFFERS 0, sub)

/-- The callback `buffer_release` on the slot it was registered for: the
slot after the call, and the frames handed to `av_frame_free`. -/
def buffer_release (mybuf : buffer) : buffer × List AVFrame :=
  let b1 := { mybuf with busy := 0 }
  match b1.prev_frame with
  | some f => ({ b1 with prev_frame := none }, [f])
  | none => ({ b1 with prev_frame := none }, [])

/-- The release of slot `k` of the video pool: `create_dmabuf_buffer`
registers `buffer_release` on each slot with the slot itself as `data`. -/
def video_buffer_release (s : video) (k : Fin NUM_BUFFERS) : video × List AVFrame :=
  ({ s with buffers := Function.update s.buffers k (buffer_release (s.buffers k)).1 },
   (buffer_release (s.buffers k)).2)

/-- The number of slots of the pool with a decoded frame attached. -/
def frames_in_flight (s : video) : Nat :=
  (List.finRange NUM_BUFFERS).countP (fun i => (s.buffers i).prev_frame.isSome)

/-! ## Frame converter -/

/-- One byte store: the byte offset from the mapped pointer, and the value. -/
abbrev Store := Nat × Nat

/-- The memory after one byte store. -/
def write (m : Mem) (s : Store) : Mem := fun a => if a = s.1 then s.2 else m a

/-- The memory after a list of byte stores, performed first to last. -/
def apply_stores (m : Mem) (l : List Store) : Mem := l.foldl write m

/-- The stores of a counted loop `for (i = 0; i < n; i++) body(i)`. -/
def for_stores : Nat → (Nat → List Store) → List Store
  | 0, _ => []
  | n + 1, body => for_stores n body ++ body n

/-- The value of `((uint16_t *)(p + off))[i]`. -/
def load16 (p : Mem) (off i : Nat) : Nat := p (off + 2 * i) + 256 * p (off + 2 * i + 1)

/-- The stores of `((uint16_t *)(mmap + off))[i] = v` for a 16-bit `v`. -/
def store16 (off i v : Nat) : List Store :=
  [(off + 2 * i, v % 256), (off + 2 * i + 1, v / 256 % 256)]

/-- An `int` value in `0 .. 2^31` converted to `uint16_t`. -/
def to_uint16 (x : Nat) : Nat := x % 2 ^ 16

/-- The first half of `copy_420p10_to_p010` (the luma loop). -/
def copy_420p10_to_p010_luma (b : buffer) (frame : AVFrame) : List Store :=
  let height := b.height
  let linesize := frame.linesize 0
  let size := (linesize * height) / 2
  for_stores size (fun i => store16 0 i (to_uint16 (load16 (frame.data 0) 0 i <<< 6)))

/-- The second half of `copy_420p10_to_p010` (the chroma loop); `dstuv` is
`buffer->mmap + buffer->stride * buffer->height`. -/
def copy_420p10_to_p010_chroma (b : buffer) (frame : AVFrame) : List Store :=
  let height := b.height / 2
  let dstuv := b.stride * b.height
  let linesize := frame.linesize 1
  let size := (linesize * height) / 2
  for_stores size (fun i =>
    store16 dstuv (2 * i) (to_uint16 (load16 (frame.data 1) 0 i <<< 6)) ++
    store16 dstuv (2 * i + 1) (to_uint16 (load16 (frame.data 2) 0 i <<< 6)))

/-- The function `copy_420p10_to_p010`: its stores, in program order. -/
def copy_420p10_to_p010 (b : buffer) (frame : AVFrame) : List Store :=
  copy_420p10_to_p010_luma b frame ++ copy_420p10_to_p010_chroma b frame

/-- The stores of `memcpy(mmap + dst, src + src_off, n)`. -/
def memcpy (dst : Nat) (src : Mem) (src_off n : Nat) : List Store :=
  for_stores n (fun k => [(dst + k, src (src_off + k))])

/-- The arrays `plane_heights`, `offsets` and the count `n_planes` that the
`switch` of `fill_buffer` leaves for the plane loop. -/
def fill_layout (format : Int) (height : Nat) : List Nat × List Nat × Nat :=
  if format = DRM_FORMAT_YUV420 then
    ([height, height / 2, height / 2, 0], [0, height, height * 3 / 2, 0], 3)
  else ([0, 0, 0, 0], [0, 0, 0, 0], 0)

/-- One iteration of the plane loop of `fill_buffer`: plane `i` is copied
row by row, `linesize` bytes a row, source and destination both advancing by
`linesize`, starting at `mmap + frame->linesize[0] * offsets[i]`. -/
def plane_stores (frame : AVFrame) (plane_heights offsets : List Nat) (i : Nat) : List Store :=
  let height := plane_heights.getD i 0
  let linesize := frame.linesize i
  let dst := frame.linesize 0 * offsets.getD i 0
  for_stores height (fun r => memcpy (dst + r * linesize) (frame.data i) (r * linesize) linesize)

/-- The stores `fill_buffer` performs once the buffer is mapped. -/
def fill_buffer_stores (b : buffer) (frame : AVFrame) : List Store :=
  if b.format = DRM_FORMAT_P010 then copy_420p10_to_p010 b frame
  else
    let l := fill_layout b.format b.height
    for_stores l.2.2 (plane_stores frame l.1 l.2.1)

/-- The function `fill_buffer`; `map` is what `gbm_bo_map` returns.  The
result is the returned `int`, the slot after the call and the diagnostics. -/
def fill_buffer (b : buffer) (frame : AVFrame) (map : Option Nat) : Int × buffer × List Event :=
  let b1 := { b with mmap := map }
  match map with
  | none => (0, b1, [Event.stderr Diag.unable_to_mmap_buffer])
  | some _ => (1, { b1 with mem := apply_stores b1.mem (fill_buffer_stores b1 frame) }, [])

/-! ## Buffer allocation -/

/-- The first `switch` of `create_dmabuf_buffer`: the GBM pixel format, the
width and height of the buffer object, and `cpp`. -/
def dmabuf_geometry (format : Int) (width height : Nat) : Nat × Nat × Nat × Int :=
  if format = DRM_FORMAT_NV12 then (GBM_FORMAT_GR88, width / 2, height * 3 / 2, 1)
  else if format = DRM_FORMAT_YUV420 then (GBM_FORMAT_GR88, width / 2, height * 2, 1)
  else if format = DRM_FORMAT_P010 then (GBM_FORMAT_GR88, width, height * 3 / 2, 2)
  else if format = DRM_FORMAT_ARGB8888 then (GBM_FORMAT_ARGB8888, width, height, 1)
  else (GBM_FORMAT_XRGB8888, width, height, 1)

/-- The planes `create_dmabuf_buffer` declares to the compositor with
`zwp_linux_buffer_params_v1_add`: plane index, byte offset, row stride. -/
def dmabuf_planes (format : Int) (stride height : Nat) : List (Nat × Nat × Nat) :=
  (0, 0, stride) ::
  (if format = DRM_FORMAT_NV12 then [(1, stride * height, stride)]
   else if format = DRM_FORMAT_YUV420 then
     [(1, stride * height, stride / 2), (2, stride * height * 3 / 2, stride / 2)]
   else if format = DRM_FORMAT_P010 then [(1, stride * height, stride)]
   else [])

/-- What the calls made by `create_dmabuf_buffer` return: `open`,
`gbm_create_device`, `gbm_bo_create_with_modifiers`, `gbm_bo_get_stride`,
`gbm_bo_get_fd`, `zwp_linux_buffer_params_v1_create_immed`, and the
contents of the fresh buffer object. -/
structure GbmEnv where
  drm_fd : Int
  gbm : Option Nat
  bo : Option Nat
  bo_stride : Nat
  dmabuf_fd : Int
  wl_buffer : Option Nat
  bo_mem : Mem

/-- The slot after `memset(buffer, 0, sizeof(*buffer))`. -/
def zero_buffer : buffer :=
  { buffer := none, busy := 0, drm_fd := 0, gem_handle := 0, dmabuf_fd := 0, mmap := none,
    width := 0, height := 0, bpp := 0, stride := 0, format := 0, prev_frame := none,
    gbm := none, cpp := 0, bo := none, mem := fun _ => 0 }

/-- The function `create_dmabuf_buffer`: the returned `int`, the slot and
the planes declared for it. -/
def create_dmabuf_buffer (env : GbmEnv) (width height : Nat) (format : Int) :
    Int × buffer × List (Nat × Nat × Nat) :=
  let b0 := { zero_buffer with drm_fd := env.drm_fd }
  if env.drm_fd < 0 then (-1, b0, [])
  else
    let b1 := { b0 with gbm := env.gbm }
    if b1.gbm.isNone then (-1, b1, [])
    else
      let g := dmabuf_geometry format width height
      let b2 := { b1 with width := width, height := height, format := format, cpp := g.2.2.2 }
      let b3 := { b2 with bo := env.bo }
      if b3.bo.isNone then (-1, b3, [])
      else
        let b4 := { b3 with dmabuf_fd := env.dmabuf_fd, stride := env.bo_stride, mem := env.bo_mem }
        if b4.dmabuf_fd < 0 then (-1, b4, [])
        else
          (0, { b4 with buffer := env.wl_buffer }, dmabuf_planes format b4.stride b4.height)

/-- The number of bytes of the buffer object `create_dmabuf_buffer`
allocates for a slot: `buf_h` rows of `stride` bytes. -/
def allocated_bytes (b : buffer) : Nat :=
  b.stride * (dmabuf_geometry b.format b.width b.height).2.2.1

/-- The byte of plane `p`, row `r`, column `x` of a slot, read with the
layout `create_dmabuf_buffer` declared for it. -/
def readback (b : buffer) (p r x : Nat) : Nat :=
  match (dmabuf_planes b.format b.stride b.height).find? (fun d => d.1 == p) with
  | some d => b.mem (d.2.1 + r * d.2.2 + x)
  | none => 0

/-! ## Decode pump -/

/-- The frame `av_frame_alloc` returns. -/
def blank_frame : AVFrame :=
  { data := fun _ _ => 0, linesize := fun _ => 0, width := 0, height := 0,
    content_light := none, mastering_display := none }

/-- The packet after `av_packet_unref`. -/
def blank_packet : AVPacket := { size := 0, stream_index := 0, payload := 0 }

/-- The function `decode` on the pending packet `s->pkt`: the returned
`bool`, the stream context after the call and the frame. -/
def decode (s : video) (frame : AVFrame) : Bool × video × AVFrame :=
  if s.pkt.size = 0 then (false, s, frame)
  else if s.pkt.stream_index ≠ s.stream_index then (false, s, frame)
  else
    let r := s.codec.send s.codec.state s.pkt
    let s1 := { s with codec := { s.codec with state := r.1 } }
    if r.2 < 0 then (false, s1, frame)
    else
      let r2 := s1.codec.receive s1.codec.state
      let s2 := { s1 with codec := { s1.codec with state := r2.1 } }
      if r2.2.1 < 0 then (false, s2, frame)
      else (true, s2, r2.2.2)

/-- The loop of `demux_and_decode` over the packets the demuxer still
holds: `av_read_frame` fails when none is left; a packet read is decoded,
then unreferenced, and the loop ends when `decode` returned true. -/
def demux_loop (s : video) (frame : AVFrame) : List AVPacket → Bool × video × AVFrame
  | [] => (false, { s with fmt_ctx := [] }, frame)
  | p :: rest =>
    let d := decode { s with fmt_ctx := rest, pkt := p } frame
    let s1 := { d.2.1 with pkt := blank_packet }
    if d.1 then (true, s1, d.2.2)
    else demux_loop s1 d.2.2 rest

/-- The function `demux_and_decode`; `frame_alloc` tells whether
`av_frame_alloc` succeeds.  The result is the returned frame pointer and
the stream context after the call. -/
def demux_and_decode (s : video) (frame_alloc : Bool) : Option AVFrame × video :=
  if frame_alloc then
    let r := demux_loop s blank_frame s.fmt_ctx
    if r.1 then (some r.2.2, r.2.1) else (none, r.2.1)
  else (none, s)

/-! ## Redraw handler -/

/-- What the calls made during one redraw tick return: whether
`av_frame_alloc` succeeds, the pointer `gbm_bo_map` returns, and the proxy
`zwp_hdr_metadata_v1_get_hdr_surface` returns. -/
structure TickEnv where
  frame_alloc : Bool
  map : Option Nat
  hdr_surface : Nat

/-- The function `ensure_hdr_surface`; the flag tells whether its `assert`
failed. -/
def ensure_hdr_surface (a : app) (env : TickEnv) : app × List Event × Bool :=
  if a.hdr_metadata.isNone then (a, [Event.assert_failed], true)
  else if a.hdr_surface.isSome then (a, [], false)
  else ({ a with hdr_surface := some env.hdr_surface },
        [Event.get_hdr_surface env.hdr_surface], false)

/-- The function `destroy_hdr_surface`. -/
def destroy_hdr_surface (a : app) : app × List Event :=
  match a.hdr_surface with
  | some h => ({ a with hdr_surface := none }, [Event.hdr_surface_destroy h])
  | none => (a, [])

/-- Lines 595 to 638 of `redraw_handler`: the side data of the frame is
forwarded to the HDR surface.  The flag tells whether the tick was aborted
by the `assert` of `ensure_hdr_surface`.  `MaxCLL` and `MaxFALL` are
`unsigned` fields copied into the `int` variables `max_cll` and `max_fall`.
The ten fixed-point arguments of `zwp_hdr_surface_v1_set` derived from
floating-point values are not recorded. -/
def redraw_hdr (a : app) (frame : AVFrame) (env : TickEnv) : app × List Event × Bool :=
  let max_cll : Int := match frame.content_light with
    | some ll => to_int32 ll.MaxCLL
    | none => -1
  let max_fall : Int := match frame.content_light with
    | some ll => to_int32 ll.MaxFALL
    | none => -1
  match frame.mastering_display with
  | some hdr_metadata =>
    if hdr_metadata.has_luminance ≠ 0 ∧ hdr_metadata.has_primaries ≠ 0 then
      let e := ensure_hdr_surface a env
      if e.2.2 then (e.1, e.2.1, true)
      else
        (e.1, e.2.1 ++
          [Event.hdr_surface_set e.1.hdr_surface
             (if max_cll = -1 then 0 else max_cll) (if max_fall = -1 then 0 else max_fall),
           Event.hdr_surface_set_eotf e.1.hdr_surface], false)
    else (a, [], false)
  | none =>
    let d := destroy_hdr_surface a
    (d.1, d.2, false)

/-- The function `redraw_handler`: the application state after the tick and
the calls made during it. -/
def redraw_handler (a : app) (env : TickEnv) : app × List Event :=
  let dd := demux_and_decode a.video env.frame_alloc
  let a0 := { a with video := dd.2 }
  match dd.1 with
  | none => (a0, [Event.stderr Diag.no_more_frames])
  | some frame =>
    let h := redraw_hdr a0 frame env
    let a1 := h.1
    if h.2.2 then (a1, h.2.1)
    else
      match (video_next_buffer a1.video).1 with
      | none => (a1, h.2.1 ++ [Event.schedule_redraw])
      | some i =>
        let f := fill_buffer (a1.video.buffers i) frame env.map
        if f.1 = 0 then
          ({ a1 with video := { a1.video with buffers := Function.update a1.video.buffers i f.2.1 } },
           h.2.1 ++ f.2.2 ++ [Event.stderr Diag.failed_to_fill_buffer])
        else
          let b := { f.2.1 with busy := 1, prev_frame := some frame }
          ({ a1 with video := { a1.video with buffers := Function.update a1.video.buffers i b } },
           h.2.1 ++ f.2.2 ++
             [Event.attach f.2.1.buffer, Event.damage frame.width frame.height,
              Event.commit, Event.schedule_redraw])

/-! ## Pixel format mapper -/

/-- The function `av_format_to_drm_format`. -/
def av_format_to_drm_format (format : AVPixelFormat) : Nat :=
  match format with
  | .AV_PIX_FMT_YUV420P => DRM_FORMAT_YUV420
  | .AV_PIX_FMT_YUV420P10BE => DRM_FORMAT_P010
  | .AV_PIX_FMT_YUV420P10LE => DRM_FORMAT_P010
  | .AV_PIX_FMT_YUV420P12BE => DRM_FORMAT_P012
  | .AV_PIX_FMT_YUV420P12LE => DRM_FORMAT_P012
  | .AV_PIX_FMT_YUV420P16BE => DRM_FORMAT_P016
  | .AV_PIX_FMT_YUV420P16LE => DRM_FORMAT_P016
  | .other _ => to_uint32 (-1)

/-! ## Sample inputs -/

/-- An 8-bit 4:2:0 frame of 4 by 2 pixels with line sizes 4, 2 and 2; byte
`k` of plane `p` is `16 * (p + 1) + k`. -/
def sample_frame : AVFrame :=
  { data := fun p k => 16 * (p + 1) + k, linesize := fun p => if p = 0 then 4 else 2,
    width := 4, height := 2, content_light := none, mastering_display := none }

/-- A free slot of 4 by 2 pixels of the given format and stride, zero filled. -/
def sample_slot (format : Int) (stride handle : Nat) : buffer :=
  { zero_buffer with
    buffer := some handle, width := 4, height := 2, stride := stride, format := format,
    gbm := some 0, bo := some handle }

/-- A decoder that accepts every packet and returns `sample_frame` for it. -/
def sample_codec : AVCodecContext :=
  { state := 0, send := fun st _ => (st + 1, 0), receive := fun st => (st, 0, sample_frame),
    width := 4, height := 2, pix_fmt := AVPixelFormat.AV_PIX_FMT_YUV420P }

/-- A packet of one byte of the given stream. -/
def sample_packet (stream_index : Int) : AVPacket :=
  { size := 1, stream_index := stream_index, payload := 0 }

/-- A stream of four packets of stream 0 and a pool of three free
`DRM_FORMAT_YUV420` slots of stride 4. -/
def sample_video : video :=
  { fmt_ctx := [sample_packet 0, sample_packet 0, sample_packet 0, sample_packet 0],
    codec := sample_codec, pkt := blank_packet, stream_index := 0,
    buffers := fun i => sample_slot DRM_FORMAT_YUV420 4 i.val, prev_buffer := none }

/-- An application with `sample_video` and every global bound. -/
def sample_app : app :=
  { video := sample_video, subtitle := none, colorspace := some 0, hdr_metadata := some 0,
    hdr_surface := none, dmabuf := some 0 }

/-- A tick in which every call succeeds. -/
def sample_env : TickEnv := { frame_alloc := true, map := some 0, hdr_surface := 7 }

/-- A 10-bit 4:2:0 frame of 4 by 2 pixels with line sizes 8, 4 and 4 bytes;
16-bit sample `i` of plane `p` is `512 + 16 * p + i`, stored low byte
first. -/
def sample_frame10 : AVFrame :=
  { data := fun p k =>
      if k % 2 = 0 then (512 + 16 * p + k / 2) % 256 else (512 + 16 * p + k / 2) / 256,
    linesize := fun p => if p = 0 then 8 else 4,
    width := 4, height := 2, content_light := none, mastering_display := none }

/-- The frame `sample_frame10` as a decoder with padded rows delivers it:
line sizes 16, 8 and 8 bytes. -/
def sample_frame10_padded : AVFrame :=
  { sample_frame10 with linesize := fun p => if p = 0 then 16 else 8 }

/-! ## Stream startup -/

/-- What the calls made by `video_open` return: `avformat_open_input` (and
the demuxer it opens), `avformat_find_stream_info`, `av_find_best_stream`,
`avcodec_alloc_context3` (the context as `avcodec_parameters_to_context`
fills it), `avcodec_parameters_to_context`, `avcodec_open2` and
`av_parser_init`. -/
structure OpenEnv where
  open_input : Int
  fmt_ctx : List AVPacket
  find_stream_info : Int
  find_best_stream : Int
  codec : Option AVCodecContext
  parameters_to_context : Int
  open2 : Int
  parser_init : Option Nat

/-- The function `video_open`: `none` when it returns false, otherwise the
stream context it leaves (the pool still zeroed). -/
def video_open (env : OpenEnv) : Option video :=
  if env.open_input < 0 then none
  else if env.find_stream_info < 0 then none
  else if env.find_best_stream < 0 then none
  else
    match env.codec with
    | none => none
    | some codec =>
      if env.parameters_to_context < 0 then none
      else if env.open2 < 0 then none
      else if env.parser_init.isNone then none
      else
        some { fmt_ctx := env.fmt_ctx, codec := codec, pkt := blank_packet,
               stream_index := env.find_best_stream, buffers := fun _ => zero_buffer,
               prev_buffer := none }

/-- What the calls made by `video_create` return: the globals bound by
`global_handler` during the roundtrip, the calls of `video_open`, the two
command-line options, and the calls of each `create_dmabuf_buffer`. -/
structure CreateEnv where
  colorspace : Option Nat
  hdr_metadata : Option Nat
  dmabuf : Option Nat
  video_open : OpenEnv
  option_subtitle : Bool
  option_fullscreen : Bool
  gbm : Fin NUM_BUFFERS → GbmEnv

/-- The buffer loop of `video_create`, from index `i` on, with `fuel`
iterations left: `none` when a `create_dmabuf_buffer` returned a negative
value (`goto err`), otherwise the pool. -/
def create_buffers (gbm : Fin NUM_BUFFERS → GbmEnv) (width height : Nat) (format : Int)
    (buffers : Fin NUM_BUFFERS → buffer) : Nat → Nat → Option (Fin NUM_BUFFERS → buffer)
  | 0, _ => some buffers
  | fuel + 1, i =>
    if h : i < NUM_BUFFERS then
      let r := create_dmabuf_buffer (gbm ⟨i, h⟩) width height format
      if r.1 < 0 then none
      else create_buffers gbm width height format (Function.update buffers ⟨i, h⟩ r.2.1) fuel (i + 1)
    else some buffers

/-- The subtitle context `subtitle_create` returns. -/
def subtitle_create : subtitle :=
  { width := 0, height := 0, time := 0, buffers := fun _ => zero_buffer, prev_buffer := none }

/-- The function `video_create`: `none` is `NULL`.  The toolkit calls
(window, widget, handlers, resize) are left out. -/
def video_create (env : CreateEnv) : Option app :=
  match video_open env.video_open with
  | none => none
  | some s =>
    let subtitle := if env.option_subtitle then some subtitle_create else none
    let width := s.codec.width
    let height := s.codec.height
    let format := av_format_to_drm_format s.codec.pix_fmt
    match create_buffers env.gbm width height (to_int32 format) s.buffers NUM_BUFFERS 0 with
    | none => none
    | some buffers =>
      some { video := { s with buffers := buffers }, subtitle := subtitle,
             colorspace := env.colorspace, hdr_metadata := env.hdr_metadata,
             hdr_surface := none, dmabuf := env.dmabuf }

/-! ## Reference behaviour of the decode pump -/

/-- A packet read at decoder state `st` produces a frame: it belongs to the
selected stream, has non-zero size, and both the submission and the receipt
succeed. -/
def yields_frame (sel : Int) (c : AVCodecContext) (st : Nat) (p : AVPacket) : Prop :=
  p.stream_index = sel ∧ p.size ≠ 0 ∧ 0 ≤ (c.send st p).2 ∧
    0 ≤ (c.receive (c.send st p).1).2.1

instance (sel : Int) (c : AVCodecContext) (st : Nat) (p : AVPacket) :
    Decidable (yields_frame sel c st p) := by
  unfold yields_frame
  infer_instance

/-- The frame the decoder hands out for a packet submitted at state `st`. -/
def frame_of (c : AVCodecContext) (st : Nat) (p : AVPacket) : AVFrame :=
  (c.receive (c.send st p).1).2.2

/-- The decoder state after a packet read at state `st` was dealt with: a
packet of another stream or of size zero never reaches the decoder; a
submitted packet leaves the state of the failed submission, or the state
after the receipt. -/
def decoder_step (sel : Int) (c : AVCodecContext) (st : Nat) (p : AVPacket) : Nat :=
  if p.stream_index ≠ sel ∨ p.size = 0 then st
  else if (c.send st p).2 < 0 then (c.send st p).1
  else (c.receive (c.send st p).1).1

/-- The decoder state after the packets of `pre` were dealt with in order. -/
def decoder_after (sel : Int) (c : AVCodecContext) (st : Nat) (pre : List AVPacket) : Nat :=
  pre.foldl (decoder_step sel c) st

/-- The reference pump: the frame of the first packet that produces one and
the input left after that packet; `none` when the input ends first. -/
def next_frame (sel : Int) (c : AVCodecContext) : Nat → List AVPacket → Option (AVFrame × List AVPacket)
  | _, [] => none
  | st, p :: rest =>
    if yields_frame sel c st p then some (frame_of c st p, rest)
    else next_frame sel c (decoder_step sel c st p) rest

/-! ## Further sample inputs -/

/-- Calls of `create_dmabuf_buffer` that all succeed, with stride 16. -/
def sample_gbm_env (handle : Nat) : GbmEnv :=
  { drm_fd := 3, gbm := some 0, bo := some handle, bo_stride := 16, dmabuf_fd := 4,
    wl_buffer := some handle, bo_mem := fun _ => 0 }

/-- A startup in which every call succeeds, for a stream of the given
decoder pixel format. -/
def sample_create_env (pix_fmt : AVPixelFormat) : CreateEnv :=
  { colorspace := some 0, hdr_metadata := some 0, dmabuf := some 0,
    video_open :=
      { open_input := 0, fmt_ctx := [sample_packet 0], find_stream_info := 0,
        find_best_stream := 0, codec := some { sample_codec with pix_fmt := pix_fmt },
        parameters_to_context := 0, open2 := 0, parser_init := some 0 },
    option_subtitle := false, option_fullscreen := false,
    gbm := fun i => sample_gbm_env i.val }

/-- Mastering-display metadata with the given `has_primaries` and
`has_luminance` flags. -/
def sample_mastering (has_primaries has_luminance : Int) : AVMasteringDisplayMetadata :=
  { display_primaries := fun _ _ => { num := 1, den := 2 },
    white_point := fun _ => { num := 1, den := 3 },
    min_luminance := { num := 1, den := 100 }, max_luminance := { num := 1000, den := 1 },
    has_primaries := has_primaries, has_luminance := has_luminance }

/-- The frame `sample_frame` carrying mastering-display metadata. -/
def sample_hdr_frame (has_primaries has_luminance : Int) : AVFrame :=
  { sample_frame with mastering_display := some (sample_mastering has_primaries has_luminance) }

/-- A decoder whose first frame carries complete mastering-display metadata
and whose later frames carry none. -/
def sample_hdr_codec : AVCodecContext :=
  { sample_codec with
    receive := fun st => (st, 0, if st = 1 then sample_hdr_frame 1 1 else sample_frame) }

/-- The application `sample_app` decoding with `sample_hdr_codec`. -/
def sample_hdr_app : app :=
  { sample_app with video := { sample_video with codec := sample_hdr_codec } }

/-- A decoder that always hands out a frame whose metadata has the given
flags. -/
def sample_flag_codec (has_primaries has_luminance : Int) : AVCodecContext :=
  { sample_codec with receive := fun st => (st, 0, sample_hdr_frame has_primaries has_luminance) }

/-- The stream `sample_video` preceded by a packet of stream 1. -/
def sample_video_two_streams : video :=
  { sample_video with fmt_ctx := [sample_packet 1, sample_packet 0] }

/-- The stream context `video_open` leaves in the startup
`sample_create_env pix_fmt`. -/
def sample_opened (pix_fmt : AVPixelFormat) : video :=
  { fmt_ctx := [sample_packet 0], codec := { sample_codec with pix_fmt := pix_fmt },
    pkt := blank_packet, stream_index := 0, buffers := fun _ => zero_buffer,
    prev_buffer := none }

/-! ## Lemmas -/

theorem next_buffer_loop_some (bufs : Fin NUM_BUFFERS → buffer) (k : Fin NUM_BUFFERS) :
    ∀ fuel i : Nat, next_buffer_loop bufs fuel i = some k ↔
      (i ≤ k.val ∧ k.val < i + fuel ∧ (bufs k).busy = 0 ∧
        ∀ j : Fin NUM_BUFFERS, i ≤ j.val → j.val < k.val → (bufs j).busy ≠ 0) := by
  intro fuel
  induction fuel with
  | zero =>
    intro i
    simp only [next_buffer_loop, Nat.add_zero]
    constructor
    · intro h; cases h
    · rintro ⟨h1, h2, -⟩; omega
  | succ n ih =>
    intro i
    unfold next_buffer_loop
    by_cases h : i < NUM_BUFFERS
    · by_cases hb : (bufs ⟨i, h⟩).busy = 0
      · simp only [h, hb, dite_true, if_true, Option.some.injEq]
        constructor
        · intro e
          subst e
          refine ⟨le_refl _, by simp, hb, ?_⟩
          intro j h1 h2
          simp at h1 h2
          omega
        · rintro ⟨h1, -, -, h4⟩
          by_contra hne
          have hlt : i < k.val := by
            rcases Nat.lt_or_ge i k.val with h5 | h5
            · exact h5
            · exact absurd (Fin.ext (by simp; omega)) hne
          exact h4 ⟨i, h⟩ (le_refl _) hlt hb
      · simp only [h, hb, dite_true, if_false]
        rw [ih (i + 1)]
        constructor
        · rintro ⟨h1, h2, h3, h4⟩
          refine ⟨by omega, by omega, h3, ?_⟩
          intro j h5 h6
          rcases Nat.eq_or_lt_of_le h5 with h7 | h7
          · have : j = ⟨i, h⟩ := Fin.ext h7.symm
            rw [this]; exact hb
          · exact h4 j h7 h6
        · rintro ⟨h1, h2, h3, h4⟩
          have hne : i ≠ k.val := by
            intro e
            apply hb
            have : (⟨i, h⟩ : Fin NUM_BUFFERS) = k := Fin.ext e
            rw [this]; exact h3
          refine ⟨by omega, by omega, h3, ?_⟩
          intro j h5 h6
          exact h4 j (by omega) h6
    · simp only [h, dite_false]
      constructor
      · intro e; cases e
      · rintro ⟨h1, -, -, -⟩
        have := k.isLt
        omega

theorem next_buffer_loop_none (bufs : Fin NUM_BUFFERS → buffer) :
    ∀ fuel i : Nat, NUM_BUFFERS ≤ i + fuel → (next_buffer_loop bufs fuel i = none ↔
      ∀ j : Fin NUM_BUFFERS, i ≤ j.val → (bufs j).busy ≠ 0) := by
  intro fuel
  induction fuel with
  | zero =>
    intro i hi
    simp only [next_buffer_loop, true_iff]
    intro j hj
    have := j.isLt
    omega
  | succ n ih =>
    intro i hi
    unfold next_buffer_loop
    by_cases h : i < NUM_BUFFERS
    · by_cases hb : (bufs ⟨i, h⟩).busy = 0
      · simp only [h, hb, dite_true, if_true]
        constructor
        · intro e; cases e
        · intro hall
          exact absurd hb (hall ⟨i, h⟩ (le_refl _))
      · simp only [h, hb, dite_true, if_false]
        rw [ih (i + 1) (by omega)]
        constructor
        · intro hall j hj
          rcases Nat.eq_or_lt_of_le hj with h7 | h7
          · have : j = ⟨i, h⟩ := Fin.ext h7.symm
            rw [this]; exact hb
          · exact hall j h7
        · intro hall j hj
          exact hall j (by omega)
    · simp only [h, dite_false, true_iff]
      intro j hj
      have := j.isLt
      omega
theorem decode_buffers (s : video) (frame : AVFrame) :
    (decode s frame).2.1.buffers = s.buffers := by
  unfold decode
  dsimp only
  split_ifs <;> rfl

theorem demux_loop_buffers (l : List AVPacket) :
    ∀ (s : video) (frame : AVFrame), (demux_loop s frame l).2.1.buffers = s.buffers := by
  induction l with
  | nil => intro s frame; rfl
  | cons p rest ih =>
    intro s frame
    unfold demux_loop
    dsimp only
    split_ifs with hd
    · exact decode_buffers _ _
    · rw [ih]
      exact decode_buffers _ _

theorem demux_and_decode_buffers (s : video) (fa : Bool) :
    (demux_and_decode s fa).2.buffers = s.buffers := by
  unfold demux_and_decode
  dsimp only
  split_ifs
  · exact demux_loop_buffers _ _ _
  · exact demux_loop_buffers _ _ _
  · rfl

theorem redraw_hdr_video (a : app) (frame : AVFrame) (env : TickEnv) :
    (redraw_hdr a frame env).1.video = a.video := by
  unfold redraw_hdr ensure_hdr_surface destroy_hdr_surface
  dsimp only
  cases frame.mastering_display <;> cases a.hdr_surface <;> cases a.hdr_metadata <;>
    dsimp only <;> (try split_ifs) <;> rfl

theorem redraw_hdr_events (a : app) (frame : AVFrame) (env : TickEnv) :
    (∀ w, Event.attach w ∉ (redraw_hdr a frame env).2.1) ∧
    Event.commit ∉ (redraw_hdr a frame env).2.1 ∧
    Event.schedule_redraw ∉ (redraw_hdr a frame env).2.1 := by
  unfold redraw_hdr ensure_hdr_surface destroy_hdr_surface
  dsimp only
  cases frame.mastering_display <;> cases a.hdr_surface <;> cases a.hdr_metadata <;>
    dsimp only <;> (try split_ifs) <;> simp

theorem video_next_buffer_congr (s t : video) (h : s.buffers = t.buffers) :
    (video_next_buffer s).1 = (video_next_buffer t).1 := by
  unfold video_next_buffer
  simp only [h]

/-- The four ways a redraw tick that obtained a frame can end: aborted by the
assertion, deferred for want of a free slot, dropped on a map failure, or
submitted. -/
theorem redraw_handler_cases (a : app) (env : TickEnv) (frame : AVFrame)
    (hframe : (demux_and_decode a.video env.frame_alloc).1 = some frame) :
    ∃ hdr : List Event,
      ((∀ w, Event.attach w ∉ hdr) ∧ Event.commit ∉ hdr ∧ Event.schedule_redraw ∉ hdr) ∧
      (((redraw_handler a env).1.video.buffers = a.video.buffers ∧
          (redraw_handler a env).2 = hdr) ∨
       ((video_next_buffer a.video).1 = none ∧
          (redraw_handler a env).1.video.buffers = a.video.buffers ∧
          (redraw_handler a env).2 = hdr ++ [Event.schedule_redraw]) ∨
       (∃ i, (video_next_buffer a.video).1 = some i ∧ env.map = none ∧
          (redraw_handler a env).1.video.buffers =
            Function.update a.video.buffers i { a.video.buffers i with mmap := none } ∧
          (redraw_handler a env).2 =
            hdr ++ [Event.stderr Diag.unable_to_mmap_buffer,
                    Event.stderr Diag.failed_to_fill_buffer]) ∨
       (∃ i p, (video_next_buffer a.video).1 = some i ∧ env.map = some p ∧
          (redraw_handler a env).1.video.buffers =
            Function.update a.video.buffers i
              { a.video.buffers i with
                mmap := some p,
                mem := apply_stores (a.video.buffers i).mem
                  (fill_buffer_stores { a.video.buffers i with mmap := some p } frame),
                busy := 1,
                prev_frame := some frame } ∧
          (redraw_handler a env).2 =
            hdr ++ [Event.attach (a.video.buffers i).buffer,
                    Event.damage frame.width frame.height,
                    Event.commit, Event.schedule_redraw])) := by
  have hb : (redraw_hdr { a with video := (demux_and_decode a.video env.frame_alloc).2 }
      frame env).1.video.buffers = a.video.buffers := by
    rw [redraw_hdr_video]
    exact demux_and_decode_buffers _ _
  have hn := video_next_buffer_congr _ _ hb
  refine ⟨(redraw_hdr { a with video := (demux_and_decode a.video env.frame_alloc).2 }
      frame env).2.1, redraw_hdr_events _ _ _, ?_⟩
  unfold redraw_handler
  dsimp only
  rw [hframe]
  dsimp only
  by_cases hab : (redraw_hdr { a with video := (demux_and_decode a.video env.frame_alloc).2 }
      frame env).2.2 = true
  · left
    simp only [hab, if_true]
    exact ⟨hb, trivial⟩
  · right
    simp only [hab]
    rw [hn]
    cases hnb : (video_next_buffer a.video).1 with
    | none =>
      left
      exact ⟨rfl, hb, rfl⟩
    | some i =>
      right
      cases hm : env.map with
      | none =>
        left
        refine ⟨i, rfl, rfl, ?_, ?_⟩
        · simp [fill_buffer, hb]
        · simp [fill_buffer]
      | some p =>
        right
        refine ⟨i, p, rfl, rfl, ?_, ?_⟩
        · simp [fill_buffer, hb]
        · simp [fill_buffer, hb]

/-! ## Buffer pool and redraw tick (C1 to C4) -/

/-- C1: in a redraw tick that obtained a decoded frame, the only slot the
tick changes (its memory included) and the only slot whose `wl_buffer` it
attaches is the slot `video_next_buffer` returned, whose busy flag was 0;
when the tick commits, exactly that slot ends with `busy = 1`, the decoded
frame as `prev_frame` and the stores of `fill_buffer` in its memory, every
other slot being unchanged; a slot that was busy before the tick is
unchanged in every case. -/
theorem redraw_handler_uses_only_free_slot (a : app) (env : TickEnv) (frame : AVFrame)
    (hframe : (demux_and_decode a.video env.frame_alloc).1 = some frame) :
    (∀ j, (redraw_handler a env).1.video.buffers j ≠ a.video.buffers j →
        (video_next_buffer a.video).1 = some j ∧ (a.video.buffers j).busy = 0) ∧
    (∀ w, Event.attach w ∈ (redraw_handler a env).2 →
        ∃ i, (video_next_buffer a.video).1 = some i ∧ (a.video.buffers i).busy = 0 ∧
          w = (a.video.buffers i).buffer) ∧
    (Event.commit ∈ (redraw_handler a env).2 →
        ∃ i, (video_next_buffer a.video).1 = some i ∧ (a.video.buffers i).busy = 0 ∧
          ((redraw_handler a env).1.video.buffers i).busy = 1 ∧
          ((redraw_handler a env).1.video.buffers i).prev_frame = some frame ∧
          ((redraw_handler a env).1.video.buffers i).mem =
            apply_stores (a.video.buffers i).mem
              (fill_buffer_stores { a.video.buffers i with mmap := env.map } frame) ∧
          ∀ j, j ≠ i → (redraw_handler a env).1.video.buffers j = a.video.buffers j) ∧
    (∀ j, (a.video.buffers j).busy ≠ 0 →
        (redraw_handler a env).1.video.buffers j = a.video.buffers j) := by
  have hfree : ∀ i, (video_next_buffer a.video).1 = some i → (a.video.buffers i).busy = 0 :=
    fun i hi => ((next_buffer_loop_some a.video.buffers i NUM_BUFFERS 0).1 hi).2.2.1
  obtain ⟨hdr, ⟨hat, hco, -⟩, hcase⟩ := redraw_handler_cases a env frame hframe
  rcases hcase with ⟨hb, hev⟩ | ⟨hn, hb, hev⟩ | ⟨i, hn, hm, hb, hev⟩ | ⟨i, p, hn, hm, hb, hev⟩
  · refine ⟨?_, ?_, ?_, ?_⟩
    · intro j hj; exact absurd (by rw [hb]) hj
    · intro w hw; rw [hev] at hw; exact absurd hw (hat w)
    · intro hc; rw [hev] at hc; exact absurd hc hco
    · intro j _; rw [hb]
  · refine ⟨?_, ?_, ?_, ?_⟩
    · intro j hj; exact absurd (by rw [hb]) hj
    · intro w hw
      rw [hev] at hw
      simp at hw
      exact absurd hw (hat w)
    · intro hc
      rw [hev] at hc
      simp at hc
      exact absurd hc hco
    · intro j _; rw [hb]
  · have hoth : ∀ j, j ≠ i → (redraw_handler a env).1.video.buffers j = a.video.buffers j := by
      intro j hj; rw [hb, Function.update_noteq hj]
    refine ⟨?_, ?_, ?_, ?_⟩
    · intro j hj
      by_cases hji : j = i
      · subst hji; exact ⟨hn, hfree j hn⟩
      · exact absurd (hoth j hji) hj
    · intro w hw
      rw [hev] at hw
      simp at hw
      exact absurd hw (hat w)
    · intro hc
      rw [hev] at hc
      simp at hc
      exact absurd hc hco
    · intro j hj
      apply hoth
      intro hji
      subst hji
      exact hj (hfree j hn)
  · have hoth : ∀ j, j ≠ i → (redraw_handler a env).1.video.buffers j = a.video.buffers j := by
      intro j hj; rw [hb, Function.update_noteq hj]
    refine ⟨?_, ?_, ?_, ?_⟩
    · intro j hj
      by_cases hji : j = i
      · subst hji; exact ⟨hn, hfree j hn⟩
      · exact absurd (hoth j hji) hj
    · intro w hw
      rw [hev] at hw
      simp at hw
      rcases hw with hw | hw
      · exact absurd hw (hat w)
      · exact ⟨i, hn, hfree i hn, hw⟩
    · intro _
      refine ⟨i, hn, hfree i hn, ?_, ?_, ?_, hoth⟩
      · rw [hb, Function.update_same]
      · rw [hb, Function.update_same]
      · rw [hb, Function.update_same, hm]
    · intro j hj
      apply hoth
      intro hji
      subst hji
      exact hj (hfree j hn)

/-- C1, at a concrete input: the first tick of `sample_app` decodes
`sample_frame`, and the statement holds for it. -/
theorem redraw_handler_uses_only_free_slot_witness :
    (demux_and_decode sample_app.video sample_env.frame_alloc).1 = some sample_frame ∧
    Event.commit ∈ (redraw_handler sample_app sample_env).2 ∧
    (video_next_buffer sample_app.video).1 = some 0 ∧
    ((∀ j, (redraw_handler sample_app sample_env).1.video.buffers j ≠ sample_app.video.buffers j →
        (video_next_buffer sample_app.video).1 = some j ∧ (sample_app.video.buffers j).busy = 0) ∧
    (∀ w, Event.attach w ∈ (redraw_handler sample_app sample_env).2 →
        ∃ i, (video_next_buffer sample_app.video).1 = some i ∧
          (sample_app.video.buffers i).busy = 0 ∧ w = (sample_app.video.buffers i).buffer) ∧
    (Event.commit ∈ (redraw_handler sample_app sample_env).2 →
        ∃ i, (video_next_buffer sample_app.video).1 = some i ∧
          (sample_app.video.buffers i).busy = 0 ∧
          ((redraw_handler sample_app sample_env).1.video.buffers i).busy = 1 ∧
          ((redraw_handler sample_app sample_env).1.video.buffers i).prev_frame =
            some sample_frame ∧
          ((redraw_handler sample_app sample_env).1.video.buffers i).mem =
            apply_stores (sample_app.video.buffers i).mem
              (fill_buffer_stores
                { sample_app.video.buffers i with mmap := sample_env.map } sample_frame) ∧
          ∀ j, j ≠ i →
            (redraw_handler sample_app sample_env).1.video.buffers j =
              sample_app.video.buffers j) ∧
    (∀ j, (sample_app.video.buffers j).busy ≠ 0 →
        (redraw_handler sample_app sample_env).1.video.buffers j =
          sample_app.video.buffers j)) :=
  ⟨rfl, by decide, by decide,
    redraw_handler_uses_only_free_slot sample_app sample_env sample_frame rfl⟩

/-- C2: for every assignment of busy flags, `video_next_buffer` returns
slot `k` exactly when `k` is the lowest index whose busy flag is 0, returns
`NULL` exactly when all three slots are busy, and leaves the pool as it
was; `subtitle_next_buffer` does the same on the subtitle pool. -/
theorem next_buffer_returns_lowest_free_slot (s : video) (sub : subtitle) :
    ((∀ k, (video_next_buffer s).1 = some k ↔
        ((s.buffers k).busy = 0 ∧ ∀ j, j < k → (s.buffers j).busy ≠ 0)) ∧
      ((video_next_buffer s).1 = none ↔ ∀ j, (s.buffers j).busy ≠ 0) ∧
      (video_next_buffer s).2 = s) ∧
    ((∀ k, (subtitle_next_buffer sub).1 = some k ↔
        ((sub.buffers k).busy = 0 ∧ ∀ j, j < k → (sub.buffers j).busy ≠ 0)) ∧
      ((subtitle_next_buffer sub).1 = none ↔ ∀ j, (sub.buffers j).busy ≠ 0) ∧
      (subtitle_next_buffer sub).2 = sub) := by
  have key : ∀ bufs : Fin NUM_BUFFERS → buffer,
      (∀ k, next_buffer_loop bufs NUM_BUFFERS 0 = some k ↔
        ((bufs k).busy = 0 ∧ ∀ j, j < k → (bufs j).busy ≠ 0)) ∧
      (next_buffer_loop bufs NUM_BUFFERS 0 = none ↔ ∀ j, (bufs j).busy ≠ 0) := by
    intro bufs
    constructor
    · intro k
      rw [next_buffer_loop_some]
      constructor
      · rintro ⟨-, -, h3, h4⟩
        exact ⟨h3, fun j hj => h4 j (Nat.zero_le _) hj⟩
      · rintro ⟨h3, h4⟩
        exact ⟨Nat.zero_le _, by have := k.isLt; omega, h3, fun j _ hj => h4 j hj⟩
    · rw [next_buffer_loop_none bufs NUM_BUFFERS 0 (by decide)]
      constructor
      · intro h j; exact h j (Nat.zero_le _)
      · intro h j _; exact h j
  exact ⟨⟨(key s.buffers).1, (key s.buffers).2, rfl⟩,
    ⟨(key sub.buffers).1, (key sub.buffers).2, rfl⟩⟩

/-- C3: `buffer_release` on slot `k` leaves `busy = 0` and no attached
frame, hands to `av_frame_free` exactly the frame that was attached (once)
and nothing when none was, changes no other field of the slot, no other
slot and no other field of the stream context; a second release of the
same slot, and a release of a slot with no frame attached, free nothing,
and the second release leaves the state as the first left it. -/
theorem buffer_release_frees_once (s : video) (k : Fin NUM_BUFFERS) :
    ((video_buffer_release s k).1.buffers k).busy = 0 ∧
    ((video_buffer_release s k).1.buffers k).prev_frame = none ∧
    (video_buffer_release s k).2 = (s.buffers k).prev_frame.toList ∧
    (video_buffer_release s k).1.buffers k =
      { s.buffers k with busy := 0, prev_frame := none } ∧
    (∀ j, j ≠ k → (video_buffer_release s k).1.buffers j = s.buffers j) ∧
    (video_buffer_release s k).1 = { s with buffers := (video_buffer_release s k).1.buffers } ∧
    video_buffer_release (video_buffer_release s k).1 k = ((video_buffer_release s k).1, []) ∧
    ((s.buffers k).prev_frame = none → (video_buffer_release s k).2 = []) := by
  have hb : ∀ b : buffer, (buffer_release b).1 = { b with busy := 0, prev_frame := none } ∧
      (buffer_release b).2 = b.prev_frame.toList := by
    intro b
    unfold buffer_release
    cases h : b.prev_frame <;> simp [h]
  refine ⟨?_, ?_, ?_, ?_, ?_, rfl, ?_, ?_⟩
  · simp [video_buffer_release, (hb _).1]
  · simp [video_buffer_release, (hb _).1]
  · simp [video_buffer_release, (hb _).2]
  · simp [video_buffer_release, (hb _).1]
  · intro j hj
    simp [video_buffer_release, Function.update_noteq hj]
  · simp [video_buffer_release, (hb _).1, (hb _).2]
  · intro h
    simp [video_buffer_release, (hb _).2, h]

/-- A tick that commits a buffer obtained a free slot from
`video_next_buffer` and changed that slot only, leaving it busy with a frame
attached. -/
theorem redraw_handler_commit_step (a : app) (env : TickEnv)
    (hc : Event.commit ∈ (redraw_handler a env).2) :
    ∃ i b, (video_next_buffer a.video).1 = some i ∧ (a.video.buffers i).busy = 0 ∧
      (redraw_handler a env).1.video.buffers = Function.update a.video.buffers i b ∧
      b.busy = 1 ∧ b.prev_frame.isSome = true := by
  cases hd : (demux_and_decode a.video env.frame_alloc).1 with
  | none =>
    exfalso
    revert hc
    unfold redraw_handler
    dsimp only
    rw [hd]
    simp
  | some frame =>
    obtain ⟨hdr, ⟨-, hco, -⟩, hcase⟩ := redraw_handler_cases a env frame hd
    rcases hcase with ⟨-, hev⟩ | ⟨-, -, hev⟩ | ⟨i, -, -, -, hev⟩ | ⟨i, p, hn, -, hb, -⟩
    · rw [hev] at hc; exact absurd hc hco
    · rw [hev] at hc; simp at hc; exact absurd hc hco
    · rw [hev] at hc; simp at hc; exact absurd hc hco
    · exact ⟨i, _, hn, ((next_buffer_loop_some a.video.buffers i NUM_BUFFERS 0).1 hn).2.2.1,
        hb, rfl, rfl⟩

/-- C4: (1) from a pool of three free slots, three ticks that each commit a
buffer, with no release between them, leave all three slots busy, each with
a frame attached, and the next `video_next_buffer` returns `NULL`; (2) from
any pool with all three slots busy, one `buffer_release` on slot `k` makes
`video_next_buffer` return slot `k`; (3) no pool ever has more than three
frames attached. -/
theorem pool_bounds_frames_in_flight :
    (∀ (a : app) (e1 e2 e3 : TickEnv),
      (∀ j, (a.video.buffers j).busy = 0) →
      Event.commit ∈ (redraw_handler a e1).2 →
      Event.commit ∈ (redraw_handler (redraw_handler a e1).1 e2).2 →
      Event.commit ∈ (redraw_handler (redraw_handler (redraw_handler a e1).1 e2).1 e3).2 →
      (∀ j, ((redraw_handler (redraw_handler (redraw_handler a e1).1 e2).1 e3).1.video.buffers
          j).busy = 1) ∧
      frames_in_flight
        (redraw_handler (redraw_handler (redraw_handler a e1).1 e2).1 e3).1.video = 3 ∧
      (video_next_buffer
        (redraw_handler (redraw_handler (redraw_handler a e1).1 e2).1 e3).1.video).1 = none) ∧
    (∀ (s : video) (k : Fin NUM_BUFFERS),
      (∀ j, (s.buffers j).busy ≠ 0) →
      (video_next_buffer (video_buffer_release s k).1).1 = some k) ∧
    (∀ s : video, frames_in_flight s ≤ NUM_BUFFERS) := by
  refine ⟨?_, ?_, ?_⟩
  · intro a e1 e2 e3 hfree h1 h2 h3
    obtain ⟨i1, b1, -, -, hb1, hbusy1, hpf1⟩ := redraw_handler_commit_step a e1 h1
    obtain ⟨i2, b2, -, hf2, hb2, hbusy2, hpf2⟩ :=
      redraw_handler_commit_step (redraw_handler a e1).1 e2 h2
    obtain ⟨i3, b3, -, hf3, hb3, hbusy3, hpf3⟩ :=
      redraw_handler_commit_step (redraw_handler (redraw_handler a e1).1 e2).1 e3 h3
    have h12 : i2 ≠ i1 := by
      intro e
      rw [hb1, e, Function.update_same, hbusy1] at hf2
      exact absurd hf2 (by decide)
    have h23 : i3 ≠ i2 := by
      intro e
      rw [hb2, e, Function.update_same, hbusy2] at hf3
      exact absurd hf3 (by decide)
    have h13 : i3 ≠ i1 := by
      intro e
      rw [hb2, Function.update_noteq h23, hb1, e, Function.update_same, hbusy1] at hf3
      exact absurd hf3 (by decide)
    have hpigeon : ∀ x y z : Fin NUM_BUFFERS, y ≠ x → z ≠ y → z ≠ x →
        ∀ j : Fin NUM_BUFFERS, j = x ∨ j = y ∨ j = z := by
      decide
    have hcover := hpigeon i1 i2 i3 h12 h23 h13
    have hfinal : ∀ j,
        ((redraw_handler (redraw_handler (redraw_handler a e1).1 e2).1 e3).1.video.buffers
          j).busy = 1 ∧
        ((redraw_handler (redraw_handler (redraw_handler a e1).1 e2).1 e3).1.video.buffers
          j).prev_frame.isSome = true := by
      intro j
      rw [hb3]
      rcases hcover j with e | e | e
      · subst e
        rw [Function.update_noteq (Ne.symm h13), hb2, Function.update_noteq (Ne.symm h12), hb1,
          Function.update_same]
        exact ⟨hbusy1, hpf1⟩
      · subst e
        rw [Function.update_noteq (Ne.symm h23), hb2, Function.update_same]
        exact ⟨hbusy2, hpf2⟩
      · subst e
        rw [Function.update_same]
        exact ⟨hbusy3, hpf3⟩
    refine ⟨fun j => (hfinal j).1, ?_, ?_⟩
    · unfold frames_in_flight
      rw [List.countP_eq_length.2 (fun j _ => (hfinal j).2)]
      simp
    · unfold video_next_buffer
      rw [next_buffer_loop_none _ NUM_BUFFERS 0 (by decide)]
      intro j _
      rw [(hfinal j).1]
      decide
  · intro s k hbusy
    unfold video_next_buffer
    rw [next_buffer_loop_some]
    refine ⟨Nat.zero_le _, by have := k.isLt; omega, ?_, ?_⟩
    · simp [video_buffer_release, buffer_release]
      cases (s.buffers k).prev_frame <;> rfl
    · intro j _ hj
      have hne : j ≠ k := by
        intro e; subst e; exact absurd hj (lt_irrefl _)
      simp only [video_buffer_release, Function.update_noteq hne]
      exact hbusy j
  · intro s
    unfold frames_in_flight
    exact le_trans (List.countP_le_length _) (by simp)

/-- C4, at a concrete input: three ticks of `sample_app`, which starts with
three free slots, each commit a buffer; the pool is then exhausted. -/
theorem pool_bounds_frames_in_flight_witness :
    (∀ j, (sample_app.video.buffers j).busy = 0) ∧
    Event.commit ∈ (redraw_handler sample_app sample_env).2 ∧
    Event.commit ∈ (redraw_handler (redraw_handler sample_app sample_env).1 sample_env).2 ∧
    Event.commit ∈ (redraw_handler
      (redraw_handler (redraw_handler sample_app sample_env).1 sample_env).1 sample_env).2 ∧
    (video_next_buffer (redraw_handler
      (redraw_handler (redraw_handler sample_app sample_env).1 sample_env).1
        sample_env).1.video).1 = none :=
  ⟨by decide, by decide, by decide, by decide,
    (pool_bounds_frames_in_flight.1 sample_app sample_env sample_env sample_env
      (by decide) (by decide) (by decide) (by decide)).2.2⟩

theorem mem_for_stores (body : Nat → List Store) (s : Store) :
    ∀ n, s ∈ for_stores n body ↔ ∃ i, i < n ∧ s ∈ body i := by
  intro n
  induction n with
  | zero => simp [for_stores]
  | succ n ih =>
    simp only [for_stores, List.mem_append, ih]
    constructor
    · rintro (⟨i, hi, hs⟩ | hs)
      · exact ⟨i, Nat.lt_succ_of_lt hi, hs⟩
      · exact ⟨n, Nat.lt_succ_self n, hs⟩
    · rintro ⟨i, hi, hs⟩
      rcases Nat.lt_succ_iff_lt_or_eq.1 hi with h | h
      · exact Or.inl ⟨i, h, hs⟩
      · subst h; exact Or.inr hs

theorem mem_store16 (off j v : Nat) (s : Store) (hs : s ∈ store16 off j v) :
    off + 2 * j ≤ s.1 ∧ s.1 < off + 2 * j + 2 := by
  simp only [store16, List.mem_cons, List.mem_singleton, List.not_mem_nil, or_false] at hs
  rcases hs with rfl | rfl <;> simp

/-- The chroma loop stores at or above `dstuv = stride * height` only. -/
theorem chroma_loop_addresses (b : buffer) (frame : AVFrame) (s : Store)
    (hs : s ∈ copy_420p10_to_p010_chroma b frame) :
    b.stride * b.height ≤ s.1 ∧
      s.1 < b.stride * b.height + 4 * ((frame.linesize 1 * (b.height / 2)) / 2) := by
  unfold copy_420p10_to_p010_chroma at hs
  dsimp only at hs
  rw [mem_for_stores] at hs
  obtain ⟨k, hk, hs⟩ := hs
  rw [List.mem_append] at hs
  rcases hs with hs | hs <;> have := mem_store16 _ _ _ s hs <;> omega

/-- The luma loop stores below `2 * size` only. -/
theorem luma_loop_addresses (b : buffer) (frame : AVFrame) (s : Store)
    (hs : s ∈ copy_420p10_to_p010_luma b frame) :
    s.1 < 2 * ((frame.linesize 0 * b.height) / 2) := by
  unfold copy_420p10_to_p010_luma at hs
  dsimp only at hs
  rw [mem_for_stores] at hs
  obtain ⟨k, hk, hs⟩ := hs
  have := mem_store16 _ _ _ s hs
  omega

theorem chroma_loop_stores (dstuv : Nat) (u v : Nat → Nat) :
    ∀ n, for_stores n (fun i => store16 dstuv (2 * i) (u i) ++ store16 dstuv (2 * i + 1) (v i)) =
      (List.range (2 * n)).flatMap
        (fun j => store16 dstuv j (if j % 2 = 0 then u (j / 2) else v (j / 2))) := by
  intro n
  induction n with
  | zero => rfl
  | succ n ih =>
    have h1 : 2 * (n + 1) = 2 * n + 1 + 1 := by ring
    have h2 : (2 * n + 1) / 2 = n := by omega
    have h3 : (2 * n + 1) % 2 = 1 := by omega
    rw [for_stores, ih, h1, List.range_succ, List.range_succ]
    simp [List.flatMap_append, h2, h3]

theorem yuv420_ne_p010 : DRM_FORMAT_YUV420 ≠ DRM_FORMAT_P010 := by decide

theorem yuv420_ne_nv12 : DRM_FORMAT_YUV420 ≠ DRM_FORMAT_NV12 := by decide

theorem p010_ne_nv12 : DRM_FORMAT_P010 ≠ DRM_FORMAT_NV12 := by decide

theorem p010_ne_yuv420 : DRM_FORMAT_P010 ≠ DRM_FORMAT_YUV420 := by decide

theorem allocated_bytes_yuv420 (b : buffer) (h : b.format = DRM_FORMAT_YUV420) :
    allocated_bytes b = b.stride * (b.height * 2) := by
  simp [allocated_bytes, dmabuf_geometry, h, yuv420_ne_nv12]

theorem allocated_bytes_p010 (b : buffer) (h : b.format = DRM_FORMAT_P010) :
    allocated_bytes b = b.stride * (b.height * 3 / 2) := by
  simp [allocated_bytes, dmabuf_geometry, h, p010_ne_nv12, p010_ne_yuv420]

theorem fill_buffer_stores_yuv420 (b : buffer) (frame : AVFrame)
    (h : b.format = DRM_FORMAT_YUV420) :
    fill_buffer_stores b frame =
      plane_stores frame [b.height, b.height / 2, b.height / 2, 0]
          [0, b.height, b.height * 3 / 2, 0] 0 ++
        plane_stores frame [b.height, b.height / 2, b.height / 2, 0]
          [0, b.height, b.height * 3 / 2, 0] 1 ++
        plane_stores frame [b.height, b.height / 2, b.height / 2, 0]
          [0, b.height, b.height * 3 / 2, 0] 2 := by
  simp [fill_buffer_stores, fill_layout, h, yuv420_ne_p010, for_stores]

theorem fill_buffer_stores_p010 (b : buffer) (frame : AVFrame)
    (h : b.format = DRM_FORMAT_P010) :
    fill_buffer_stores b frame =
      copy_420p10_to_p010_luma b frame ++ copy_420p10_to_p010_chroma b frame := by
  simp [fill_buffer_stores, h, copy_420p10_to_p010]

theorem row_lt (r h k l : Nat) (hr : r < h) (hk : k < l) : r * l + k < h * l := by
  have : (r + 1) * l ≤ h * l := Nat.mul_le_mul_right l hr
  have e : (r + 1) * l = r * l + l := by ring
  omega

/-- The stores of plane `i` of the plane loop lie in the `height * linesize`
bytes from `linesize[0] * offsets[i]` on. -/
theorem plane_stores_addresses (frame : AVFrame) (ph offs : List Nat) (i : Nat) (s : Store)
    (hs : s ∈ plane_stores frame ph offs i) :
    frame.linesize 0 * offs.getD i 0 ≤ s.1 ∧
      s.1 < frame.linesize 0 * offs.getD i 0 + ph.getD i 0 * frame.linesize i := by
  unfold plane_stores at hs
  dsimp only at hs
  rw [mem_for_stores] at hs
  obtain ⟨r, hr, hs⟩ := hs
  unfold memcpy at hs
  rw [mem_for_stores] at hs
  obtain ⟨k, hk, hs⟩ := hs
  rw [List.mem_singleton] at hs
  subst hs
  have := row_lt r _ k _ hr hk
  constructor
  · show _ ≤ _ + r * _ + k
    omega
  · show _ + r * _ + k < _
    omega

theorem store16_covers (off j v a : Nat) (h1 : off + 2 * j ≤ a) (h2 : a < off + 2 * j + 2) :
    ∃ s ∈ store16 off j v, s.1 = a := by
  by_cases h : a = off + 2 * j
  · exact ⟨(off + 2 * j, v % 256), List.mem_cons_self _ _, h.symm⟩
  · exact ⟨(off + 2 * j + 1, v / 256 % 256),
      List.mem_cons_of_mem _ (List.mem_cons_self _ _), by simp; omega⟩

theorem luma_loop_covers (b : buffer) (frame : AVFrame) (a : Nat)
    (ha : a < 2 * ((frame.linesize 0 * b.height) / 2)) :
    ∃ s ∈ copy_420p10_to_p010_luma b frame, s.1 = a := by
  unfold copy_420p10_to_p010_luma
  dsimp only
  obtain ⟨s, hs, e⟩ := store16_covers 0 (a / 2)
    (to_uint16 (load16 (frame.data 0) 0 (a / 2) <<< 6)) a (by omega) (by omega)
  exact ⟨s, (mem_for_stores _ _ _).2 ⟨a / 2, by omega, hs⟩, e⟩

theorem chroma_loop_covers (b : buffer) (frame : AVFrame) (a : Nat)
    (h1 : b.stride * b.height ≤ a)
    (h2 : a < b.stride * b.height + 4 * ((frame.linesize 1 * (b.height / 2)) / 2)) :
    ∃ s ∈ copy_420p10_to_p010_chroma b frame, s.1 = a := by
  unfold copy_420p10_to_p010_chroma
  dsimp only
  rw [chroma_loop_stores]
  obtain ⟨s, hs, e⟩ := store16_covers (b.stride * b.height) ((a - b.stride * b.height) / 2)
    (if (a - b.stride * b.height) / 2 % 2 = 0
      then to_uint16 (load16 (frame.data 1) 0 ((a - b.stride * b.height) / 2 / 2) <<< 6)
      else to_uint16 (load16 (frame.data 2) 0 ((a - b.stride * b.height) / 2 / 2) <<< 6))
    a (by omega) (by omega)
  exact ⟨s, List.mem_flatMap.2
    ⟨(a - b.stride * b.height) / 2, List.mem_range.2 (by omega), hs⟩, e⟩

/-- C8, as stated, fails.  (1) By design: a `DRM_FORMAT_YUV420` slot of 4
by 2 pixels and stride 4 is allocated 16 bytes, and converting a frame whose
line sizes 4, 2, 2 agree with that stride never stores to byte 15, so the
planes do not fill the allocation.  (2) With line sizes larger than the
stride (16 against a stride of 8, `DRM_FORMAT_P010`) a luma store and a
chroma store hit the same byte, and a store lands at or beyond the end of
the allocation. -/
theorem converter_planes_counterexample :
    (allocated_bytes (sample_slot DRM_FORMAT_YUV420 4 0) = 16 ∧
      sample_frame.linesize 0 = (sample_slot DRM_FORMAT_YUV420 4 0).stride ∧
      ∀ s ∈ fill_buffer_stores (sample_slot DRM_FORMAT_YUV420 4 0) sample_frame, s.1 ≠ 15) ∧
    (∃ s ∈ copy_420p10_to_p010_luma (sample_slot DRM_FORMAT_P010 8 0) sample_frame10_padded,
      ∃ t ∈ copy_420p10_to_p010_chroma (sample_slot DRM_FORMAT_P010 8 0) sample_frame10_padded,
        s.1 = t.1) ∧
    (∃ s ∈ fill_buffer_stores (sample_slot DRM_FORMAT_P010 8 0) sample_frame10_padded,
      allocated_bytes (sample_slot DRM_FORMAT_P010 8 0) ≤ s.1) := by
  decide

/-- C8, amended: when the line sizes of the frame do not exceed what the
stride of the slot allows (`DRM_FORMAT_YUV420`: `linesize[0] ≤ stride` and
both chroma line sizes at most `linesize[0]`; `DRM_FORMAT_P010`:
`linesize[0] ≤ stride` and `2 * linesize[1] ≤ stride`), the stores of the
converter are those of its planes in turn, every store of an earlier plane
lies below every store of a later plane, and every store lies inside the
`stride * buf_h` bytes allocated by `create_dmabuf_buffer`.  The planes of
a `DRM_FORMAT_P010` slot fill that allocation exactly when moreover
`linesize[0] = stride = 2 * linesize[1]`, the height is even and
`linesize[1] * (height / 2)` is even. -/
theorem converter_planes_disjoint_in_bounds (b : buffer) (frame : AVFrame) :
    (b.format = DRM_FORMAT_YUV420 → frame.linesize 0 ≤ b.stride →
      frame.linesize 1 ≤ frame.linesize 0 → frame.linesize 2 ≤ frame.linesize 0 →
      fill_buffer_stores b frame =
        plane_stores frame [b.height, b.height / 2, b.height / 2, 0]
            [0, b.height, b.height * 3 / 2, 0] 0 ++
          plane_stores frame [b.height, b.height / 2, b.height / 2, 0]
            [0, b.height, b.height * 3 / 2, 0] 1 ++
          plane_stores frame [b.height, b.height / 2, b.height / 2, 0]
            [0, b.height, b.height * 3 / 2, 0] 2 ∧
      (∀ p q, p < q → q < 3 →
        ∀ s ∈ plane_stores frame [b.height, b.height / 2, b.height / 2, 0]
            [0, b.height, b.height * 3 / 2, 0] p,
        ∀ t ∈ plane_stores frame [b.height, b.height / 2, b.height / 2, 0]
            [0, b.height, b.height * 3 / 2, 0] q, s.1 < t.1) ∧
      (∀ s ∈ fill_buffer_stores b frame, s.1 < allocated_bytes b)) ∧
    (b.format = DRM_FORMAT_P010 → frame.linesize 0 ≤ b.stride →
      2 * frame.linesize 1 ≤ b.stride →
      fill_buffer_stores b frame =
        copy_420p10_to_p010_luma b frame ++ copy_420p10_to_p010_chroma b frame ∧
      (∀ s ∈ copy_420p10_to_p010_luma b frame, ∀ t ∈ copy_420p10_to_p010_chroma b frame,
        s.1 < t.1) ∧
      (∀ s ∈ fill_buffer_stores b frame, s.1 < allocated_bytes b) ∧
      (frame.linesize 0 = b.stride → 2 * frame.linesize 1 = b.stride → b.height % 2 = 0 →
        (frame.linesize 1 * (b.height / 2)) % 2 = 0 →
        ∀ a, a < allocated_bytes b → ∃ s ∈ fill_buffer_stores b frame, s.1 = a)) := by
  constructor
  · intro hfmt h0 h1 h2
    have hh : b.height * 3 / 2 = b.height + b.height / 2 := by omega
    have e01 : frame.linesize 0 * b.height ≤ b.stride * b.height := Nat.mul_le_mul_right _ h0
    have e1 : b.height / 2 * frame.linesize 1 ≤ frame.linesize 0 * (b.height / 2) := by
      rw [Nat.mul_comm (frame.linesize 0)]; exact Nat.mul_le_mul_left _ h1
    have e2 : b.height / 2 * frame.linesize 2 ≤ frame.linesize 0 * (b.height / 2) := by
      rw [Nat.mul_comm (frame.linesize 0)]; exact Nat.mul_le_mul_left _ h2
    have e02 : frame.linesize 0 * (b.height / 2) ≤ b.stride * (b.height / 2) :=
      Nat.mul_le_mul_right _ h0
    have d1 : frame.linesize 0 * (b.height + b.height / 2) =
        frame.linesize 0 * b.height + frame.linesize 0 * (b.height / 2) := Nat.mul_add _ _ _
    have d2 : b.stride * (b.height * 2) = b.stride * b.height + b.stride * b.height := by ring
    have d3 : b.stride * (b.height / 2) + b.stride * (b.height / 2) ≤ b.stride * b.height := by
      rw [← Nat.mul_add]; exact Nat.mul_le_mul_left _ (by omega)
    have d4 : b.height * frame.linesize 0 = frame.linesize 0 * b.height := Nat.mul_comm _ _
    have r0 : ∀ s ∈ plane_stores frame [b.height, b.height / 2, b.height / 2, 0]
        [0, b.height, b.height * 3 / 2, 0] 0, s.1 < frame.linesize 0 * b.height := by
      intro s hs
      have := plane_stores_addresses _ _ _ _ s hs
      simp at this
      omega
    have r1 : ∀ s ∈ plane_stores frame [b.height, b.height / 2, b.height / 2, 0]
        [0, b.height, b.height * 3 / 2, 0] 1, frame.linesize 0 * b.height ≤ s.1 ∧
        s.1 < frame.linesize 0 * b.height + frame.linesize 0 * (b.height / 2) := by
      intro s hs
      have := plane_stores_addresses _ _ _ _ s hs
      simp at this
      omega
    have r2 : ∀ s ∈ plane_stores frame [b.height, b.height / 2, b.height / 2, 0]
        [0, b.height, b.height * 3 / 2, 0] 2,
        frame.linesize 0 * b.height + frame.linesize 0 * (b.height / 2) ≤ s.1 ∧
        s.1 < frame.linesize 0 * b.height + frame.linesize 0 * (b.height / 2) +
          frame.linesize 0 * (b.height / 2) := by
      intro s hs
      have := plane_stores_addresses _ _ _ _ s hs
      simp [hh] at this
      omega
    refine ⟨fill_buffer_stores_yuv420 b frame hfmt, ?_, ?_⟩
    · intro p q hpq hq s hs t ht
      have hcases : (p = 0 ∧ q = 1) ∨ (p = 0 ∧ q = 2) ∨ (p = 1 ∧ q = 2) := by omega
      rcases hcases with ⟨rfl, rfl⟩ | ⟨rfl, rfl⟩ | ⟨rfl, rfl⟩
      · have := r0 s hs; have := r1 t ht; omega
      · have := r0 s hs; have := r2 t ht; omega
      · have := r1 s hs; have := r2 t ht; omega
    · intro s hs
      rw [fill_buffer_stores_yuv420 b frame hfmt, List.mem_append, List.mem_append] at hs
      rw [allocated_bytes_yuv420 b hfmt]
      rcases hs with (hs | hs) | hs
      · have := r0 s hs; omega
      · have := r1 s hs; omega
      · have := r2 s hs; omega
  · intro hfmt h0 h1
    have hh : b.height * 3 / 2 = b.height + b.height / 2 := by omega
    have e01 : frame.linesize 0 * b.height ≤ b.stride * b.height := Nat.mul_le_mul_right _ h0
    have e1 : 2 * (frame.linesize 1 * (b.height / 2)) ≤ b.stride * (b.height / 2) := by
      rw [← Nat.mul_assoc]; exact Nat.mul_le_mul_right _ h1
    have d1 : b.stride * (b.height + b.height / 2) =
        b.stride * b.height + b.stride * (b.height / 2) := Nat.mul_add _ _ _
    have rl : ∀ s ∈ copy_420p10_to_p010_luma b frame, s.1 < b.stride * b.height := by
      intro s hs
      have := luma_loop_addresses b frame s hs
      omega
    have rc : ∀ s ∈ copy_420p10_to_p010_chroma b frame, b.stride * b.height ≤ s.1 ∧
        s.1 < b.stride * b.height + b.stride * (b.height / 2) := by
      intro s hs
      have := chroma_loop_addresses b frame s hs
      omega
    refine ⟨fill_buffer_stores_p010 b frame hfmt, ?_, ?_, ?_⟩
    · intro s hs t ht
      have := rl s hs; have := rc t ht; omega
    · intro s hs
      rw [fill_buffer_stores_p010 b frame hfmt, List.mem_append] at hs
      rw [allocated_bytes_p010 b hfmt, hh, d1]
      rcases hs with hs | hs
      · have := rl s hs; omega
      · have := rc s hs; omega
    · intro g0 g1 hev hev2 a ha
      rw [allocated_bytes_p010 b hfmt, hh, d1] at ha
      rw [fill_buffer_stores_p010 b frame hfmt]
      have f1 : 2 * (frame.linesize 1 * (b.height / 2)) = b.stride * (b.height / 2) := by
        rw [← Nat.mul_assoc, g1]
      have f2 : b.stride * b.height = 2 * (b.stride * (b.height / 2)) := by
        have : b.height = 2 * (b.height / 2) := by omega
        calc b.stride * b.height = b.stride * (2 * (b.height / 2)) := by rw [← this]
          _ = 2 * (b.stride * (b.height / 2)) := by ring
      by_cases hlow : a < b.stride * b.height
      · obtain ⟨s, hs, e⟩ := luma_loop_covers b frame a (by rw [g0]; omega)
        exact ⟨s, List.mem_append_left _ hs, e⟩
      · obtain ⟨s, hs, e⟩ := chroma_loop_covers b frame a (by omega) (by omega)
        exact ⟨s, List.mem_append_right _ hs, e⟩

/-- C8 amended, at concrete inputs: for `sample_frame` in a
`DRM_FORMAT_YUV420` slot of stride 4 and for `sample_frame10` in a
`DRM_FORMAT_P010` slot of stride 8 the hypotheses hold, every store lies
inside the allocation, and the `DRM_FORMAT_P010` stores cover it. -/
theorem converter_planes_disjoint_in_bounds_witness :
    (∀ s ∈ fill_buffer_stores (sample_slot DRM_FORMAT_YUV420 4 0) sample_frame,
      s.1 < allocated_bytes (sample_slot DRM_FORMAT_YUV420 4 0)) ∧
    (∀ s ∈ fill_buffer_stores (sample_slot DRM_FORMAT_P010 8 0) sample_frame10,
      s.1 < allocated_bytes (sample_slot DRM_FORMAT_P010 8 0)) ∧
    (∀ a, a < allocated_bytes (sample_slot DRM_FORMAT_P010 8 0) →
      ∃ s ∈ fill_buffer_stores (sample_slot DRM_FORMAT_P010 8 0) sample_frame10, s.1 = a) :=
  ⟨((converter_planes_disjoint_in_bounds (sample_slot DRM_FORMAT_YUV420 4 0) sample_frame).1
      rfl (by decide) (by decide) (by decide)).2.2,
    ((converter_planes_disjoint_in_bounds (sample_slot DRM_FORMAT_P010 8 0) sample_frame10).2
      rfl (by decide) (by decide)).2.2.1,
    ((converter_planes_disjoint_in_bounds (sample_slot DRM_FORMAT_P010 8 0) sample_frame10).2
      rfl (by decide) (by decide)).2.2.2 (by decide) (by decide) (by decide) (by decide)⟩

/-- C5 fails on the code: `fill_buffer` places and advances the destination
rows by the line sizes of the frame, not by the stride of the slot.  For
`sample_frame` (line sizes 4, 2, 2) in a `DRM_FORMAT_YUV420` slot of 4 by 2
pixels and stride 8, `fill_buffer` returns 1, yet row 1 of plane 0 read
with the layout declared for the slot starts with byte 0 of the U plane
(32), not with byte 4 of the Y plane (20), and the declared plane 1 was
never written.  In a slot of stride 4, equal to `linesize[0]`, every byte
reads back as the source byte when the height is 2; when the height is 3
the third plane is declared at byte 18 and written at byte 16, so its
first byte reads back as 0 where the source has 48. -/
theorem fill_buffer_ignores_slot_stride :
    (fill_buffer (sample_slot DRM_FORMAT_YUV420 8 0) sample_frame (some 0)).1 = 1 ∧
    dmabuf_planes DRM_FORMAT_YUV420 8 2 = [(0, 0, 8), (1, 16, 4), (2, 24, 4)] ∧
    readback (fill_buffer (sample_slot DRM_FORMAT_YUV420 8 0) sample_frame (some 0)).2.1 0 1 0
      = 32 ∧
    sample_frame.data 0 (1 * sample_frame.linesize 0 + 0) = 20 ∧
    sample_frame.data 1 0 = 32 ∧
    readback (fill_buffer (sample_slot DRM_FORMAT_YUV420 8 0) sample_frame (some 0)).2.1 1 0 0
      = 0 ∧
    (∀ s ∈ fill_buffer_stores (sample_slot DRM_FORMAT_YUV420 8 0) sample_frame, s.1 < 14) ∧
    (∀ p, p < 3 → ∀ r, r < (if p = 0 then 2 else 1) → ∀ x, x < sample_frame.linesize p →
      readback (fill_buffer (sample_slot DRM_FORMAT_YUV420 4 0) sample_frame (some 0)).2.1 p r x
        = sample_frame.data p (r * sample_frame.linesize p + x)) ∧
    (dmabuf_planes DRM_FORMAT_YUV420 4 3 = [(0, 0, 4), (1, 12, 2), (2, 18, 2)] ∧
      readback (fill_buffer { sample_slot DRM_FORMAT_YUV420 4 0 with height := 3 }
        { sample_frame with height := 3 } (some 0)).2.1 2 0 0 = 0 ∧
      sample_frame.data 2 0 = 48 ∧
      (fill_buffer { sample_slot DRM_FORMAT_YUV420 4 0 with height := 3 }
        { sample_frame with height := 3 } (some 0)).2.1.mem 16 = 48) := by
  decide

/-- C9 fails on the code: `fill_buffer` has no case for `DRM_FORMAT_P012`
and `DRM_FORMAT_P016`.  On a slot of either format it stores nothing,
leaves the memory of the slot as it was and still returns 1: sample 0 of
the slot stays 0 where the claim wants the source sample 512 shifted left
by 4.  `create_dmabuf_buffer` allocates such a slot as a single
`GBM_FORMAT_XRGB8888` plane.  Only `DRM_FORMAT_P010` is converted, with the
shift fixed at 6. -/
theorem fill_buffer_skips_p012_p016 (b : buffer) (frame : AVFrame) (p : Nat) :
    ((fill_buffer { b with format := DRM_FORMAT_P012 } frame (some p)).1 = 1 ∧
      fill_buffer_stores { b with format := DRM_FORMAT_P012, mmap := some p } frame = [] ∧
      (fill_buffer { b with format := DRM_FORMAT_P012 } frame (some p)).2.1.mem = b.mem) ∧
    ((fill_buffer { b with format := DRM_FORMAT_P016 } frame (some p)).1 = 1 ∧
      fill_buffer_stores { b with format := DRM_FORMAT_P016, mmap := some p } frame = [] ∧
      (fill_buffer { b with format := DRM_FORMAT_P016 } frame (some p)).2.1.mem = b.mem) ∧
    (av_format_to_drm_format AVPixelFormat.AV_PIX_FMT_YUV420P12LE = DRM_FORMAT_P012 ∧
      load16 (sample_frame10.data 0) 0 0 = 512 ∧
      load16 (fill_buffer (sample_slot DRM_FORMAT_P012 8 0) sample_frame10 (some 0)).2.1.mem 0 0
        = 0 ∧
      512 <<< (16 - 12) = 8192) ∧
    (dmabuf_geometry DRM_FORMAT_P012 4 2 = (GBM_FORMAT_XRGB8888, 4, 2, 1) ∧
      dmabuf_planes DRM_FORMAT_P012 16 2 = [(0, 0, 16)]) ∧
    (fill_buffer_stores { b with format := DRM_FORMAT_P010, mmap := some p } frame =
      copy_420p10_to_p010 { b with format := DRM_FORMAT_P010, mmap := some p } frame) := by
  have e1 : DRM_FORMAT_P012 ≠ DRM_FORMAT_P010 := by decide
  have e2 : DRM_FORMAT_P012 ≠ DRM_FORMAT_YUV420 := by decide
  have e3 : DRM_FORMAT_P016 ≠ DRM_FORMAT_P010 := by decide
  have e4 : DRM_FORMAT_P016 ≠ DRM_FORMAT_YUV420 := by decide
  have s1 : fill_buffer_stores { b with format := DRM_FORMAT_P012, mmap := some p } frame = [] := by
    simp [fill_buffer_stores, fill_layout, e1, e2, for_stores]
  have s2 : fill_buffer_stores { b with format := DRM_FORMAT_P016, mmap := some p } frame = [] := by
    simp [fill_buffer_stores, fill_layout, e3, e4, for_stores]
  refine ⟨⟨rfl, s1, ?_⟩, ⟨rfl, s2, ?_⟩, ⟨rfl, by decide, by decide, by decide⟩,
    ⟨by decide, by decide⟩, ?_⟩
  · simp only [fill_buffer, s1]; rfl
  · simp only [fill_buffer, s2]; rfl
  · simp [fill_buffer_stores]

/-! ## Pixel format mapper (C10) -/

/-- C10: `av_format_to_drm_format` maps `AV_PIX_FMT_YUV420P` to
`DRM_FORMAT_YUV420`, both endian variants of the 10-, 12- and 16-bit
formats to `DRM_FORMAT_P010`, `DRM_FORMAT_P012` and `DRM_FORMAT_P016`, and
every other decoder format to `(uint32_t)-1`, which is `0xFFFFFFFF` and
differs from each of the four fourcc codes. -/
theorem av_format_to_drm_format_table :
    av_format_to_drm_format AVPixelFormat.AV_PIX_FMT_YUV420P = DRM_FORMAT_YUV420 ∧
    av_format_to_drm_format AVPixelFormat.AV_PIX_FMT_YUV420P10BE = DRM_FORMAT_P010 ∧
    av_format_to_drm_format AVPixelFormat.AV_PIX_FMT_YUV420P10LE = DRM_FORMAT_P010 ∧
    av_format_to_drm_format AVPixelFormat.AV_PIX_FMT_YUV420P12BE = DRM_FORMAT_P012 ∧
    av_format_to_drm_format AVPixelFormat.AV_PIX_FMT_YUV420P12LE = DRM_FORMAT_P012 ∧
    av_format_to_drm_format AVPixelFormat.AV_PIX_FMT_YUV420P16BE = DRM_FORMAT_P016 ∧
    av_format_to_drm_format AVPixelFormat.AV_PIX_FMT_YUV420P16LE = DRM_FORMAT_P016 ∧
    (∀ f : AVPixelFormat,
      f ≠ AVPixelFormat.AV_PIX_FMT_YUV420P →
      f ≠ AVPixelFormat.AV_PIX_FMT_YUV420P10BE → f ≠ AVPixelFormat.AV_PIX_FMT_YUV420P10LE →
      f ≠ AVPixelFormat.AV_PIX_FMT_YUV420P12BE → f ≠ AVPixelFormat.AV_PIX_FMT_YUV420P12LE →
      f ≠ AVPixelFormat.AV_PIX_FMT_YUV420P16BE → f ≠ AVPixelFormat.AV_PIX_FMT_YUV420P16LE →
      av_format_to_drm_format f = to_uint32 (-1)) ∧
    to_uint32 (-1) = 0xFFFFFFFF ∧
    to_int32 (to_uint32 (-1)) = -1 ∧
    DRM_FORMAT_YUV420 = 0x32315559 ∧ DRM_FORMAT_P010 = 0x30313050 ∧
    DRM_FORMAT_P012 = 0x32313050 ∧ DRM_FORMAT_P016 = 0x36313050 ∧
    to_uint32 (-1) ≠ DRM_FORMAT_YUV420 ∧ to_uint32 (-1) ≠ DRM_FORMAT_P010 ∧
    to_uint32 (-1) ≠ DRM_FORMAT_P012 ∧ to_uint32 (-1) ≠ DRM_FORMAT_P016 := by
  refine ⟨rfl, rfl, rfl, rfl, rfl, rfl, rfl, ?_, by decide, by decide, by decide, by decide,
    by decide, by decide, by decide, by decide, by decide, by decide⟩
  intro f h1 h2 h3 h4 h5 h6 h7
  cases f <;> first | rfl | contradiction

/-! ## Decode pump (C12) -/

theorem decode_spec (s : video) (frame : AVFrame) :
    (decode s frame).1 = decide (yields_frame s.stream_index s.codec s.codec.state s.pkt) ∧
    (decode s frame).2.1 =
      { s with codec := { s.codec with
          state := decoder_step s.stream_index s.codec s.codec.state s.pkt } } ∧
    (decode s frame).2.2 =
      if yields_frame s.stream_index s.codec s.codec.state s.pkt
      then frame_of s.codec s.codec.state s.pkt else frame := by
  unfold decode yields_frame decoder_step frame_of
  dsimp only
  by_cases h1 : s.pkt.size = 0
  · simp [h1]
  · by_cases h2 : s.pkt.stream_index = s.stream_index
    · by_cases h3 : (s.codec.send s.codec.state s.pkt).2 < 0
      · have h3' : ¬ 0 ≤ (s.codec.send s.codec.state s.pkt).2 := not_le.2 h3
        simp [h1, h2, h3, h3']
      · have h3' : 0 ≤ (s.codec.send s.codec.state s.pkt).2 := not_lt.1 h3
        by_cases h4 : (s.codec.receive (s.codec.send s.codec.state s.pkt).1).2.1 < 0
        · have h4' : ¬ 0 ≤ (s.codec.receive (s.codec.send s.codec.state s.pkt).1).2.1 :=
            not_le.2 h4
          simp [h1, h2, h3, h4, h3', h4']
        · have h4' : 0 ≤ (s.codec.receive (s.codec.send s.codec.state s.pkt).1).2.1 :=
            not_lt.1 h4
          simp [h1, h2, h3, h4, h3', h4']
    · simp [h1, h2]

theorem next_frame_congr (sel : Int) (c : AVCodecContext) (x : Nat) (l : List AVPacket) :
    ∀ st, next_frame sel { c with state := x } st l = next_frame sel c st l := by
  induction l with
  | nil => intro st; rfl
  | cons p rest ih =>
    intro st
    simp only [next_frame]
    rw [ih]
    rfl

theorem demux_loop_spec (l : List AVPacket) :
    ∀ (s : video) (frame : AVFrame),
      (demux_loop s frame l).1 =
        (next_frame s.stream_index s.codec s.codec.state l).isSome ∧
      (∀ f post, next_frame s.stream_index s.codec s.codec.state l = some (f, post) →
        (demux_loop s frame l).2.2 = f ∧ (demux_loop s frame l).2.1.fmt_ctx = post) ∧
      (next_frame s.stream_index s.codec s.codec.state l = none →
        (demux_loop s frame l).2.1.fmt_ctx = []) := by
  induction l with
  | nil =>
    intro s frame
    simp [demux_loop, next_frame]
  | cons p rest ih =>
    intro s frame
    obtain ⟨d1, d2, d3⟩ := decode_spec { s with fmt_ctx := rest, pkt := p } frame
    unfold demux_loop
    dsimp only
    by_cases hy : yields_frame s.stream_index s.codec s.codec.state p
    · have e1 : (decode { s with fmt_ctx := rest, pkt := p } frame).1 = true := by
        rw [d1]; exact decide_eq_true hy
      have e3 : (decode { s with fmt_ctx := rest, pkt := p } frame).2.2 =
          frame_of s.codec s.codec.state p := by
        rw [d3]; exact if_pos hy
      simp only [e1, if_true, next_frame, if_pos hy, Option.isSome_some, true_and]
      refine ⟨?_, fun h => by cases h⟩
      intro f post h
      simp only [Option.some.injEq, Prod.mk.injEq] at h
      obtain ⟨rfl, rfl⟩ := h
      refine ⟨e3, ?_⟩
      rw [d2]
    · have e1 : (decode { s with fmt_ctx := rest, pkt := p } frame).1 = false := by
        rw [d1]; exact decide_eq_false hy
      simp only [e1, next_frame, if_neg hy]
      have hih := ih { (decode { s with fmt_ctx := rest, pkt := p } frame).2.1 with
        pkt := blank_packet } (decode { s with fmt_ctx := rest, pkt := p } frame).2.2
      rw [d2] at hih
      dsimp only at hih
      rw [next_frame_congr] at hih
      rw [d2]
      exact hih

theorem next_frame_none_iff (sel : Int) (c : AVCodecContext) (l : List AVPacket) :
    ∀ st, next_frame sel c st l = none ↔
      ∀ pre p post, l = pre ++ p :: post → ¬ yields_frame sel c (decoder_after sel c st pre) p := by
  induction l with
  | nil =>
    intro st
    simp [next_frame]
  | cons q rest ih =>
    intro st
    by_cases hy : yields_frame sel c st q
    · simp only [next_frame, if_pos hy]
      constructor
      · intro h; cases h
      · intro h
        exact absurd hy (h [] q rest rfl)
    · simp only [next_frame, if_neg hy]
      rw [ih]
      constructor
      · intro h pre p post e
        cases pre with
        | nil =>
          simp only [List.nil_append, List.cons.injEq] at e
          obtain ⟨rfl, -⟩ := e
          exact hy
        | cons a pre1 =>
          simp only [List.cons_append, List.cons.injEq] at e
          obtain ⟨rfl, e⟩ := e
          exact h pre1 p post e
      · intro h pre p post e
        exact h (q :: pre) p post (by rw [e]; rfl)

theorem next_frame_some (sel : Int) (c : AVCodecContext) (l : List AVPacket) :
    ∀ st f post, next_frame sel c st l = some (f, post) →
      ∃ pre p, l = pre ++ p :: post ∧
        yields_frame sel c (decoder_after sel c st pre) p ∧
        f = frame_of c (decoder_after sel c st pre) p ∧
        ∀ pre1 q post1, pre = pre1 ++ q :: post1 →
          ¬ yields_frame sel c (decoder_after sel c st pre1) q := by
  induction l with
  | nil =>
    intro st f post h
    simp [next_frame] at h
  | cons q rest ih =>
    intro st f post h
    by_cases hy : yields_frame sel c st q
    · simp only [next_frame, if_pos hy, Option.some.injEq, Prod.mk.injEq] at h
      obtain ⟨rfl, rfl⟩ := h
      refine ⟨[], q, rfl, hy, rfl, ?_⟩
      intro pre1 q1 post1 e
      simp at e
    · simp only [next_frame, if_neg hy] at h
      obtain ⟨pre, p, e, hp, hf, hmin⟩ := ih _ f post h
      refine ⟨q :: pre, p, by rw [e]; rfl, hp, hf, ?_⟩
      intro pre1 q1 post1 e1
      cases pre1 with
      | nil =>
        simp only [List.nil_append, List.cons.injEq] at e1
        obtain ⟨rfl, -⟩ := e1
        exact hy
      | cons a pre2 =>
        simp only [List.cons_append, List.cons.injEq] at e1
        obtain ⟨rfl, e1⟩ := e1
        exact hmin pre2 q1 post1 e1

/-- C12, as stated, fails: when `av_frame_alloc` returns `NULL`,
`demux_and_decode` returns no frame although the input is not exhausted and
its first packet would produce a frame (as it does when the allocation
succeeds); no packet is read. -/
theorem demux_and_decode_counterexample :
    (demux_and_decode sample_video false).1 = none ∧
    (demux_and_decode sample_video false).2.fmt_ctx = sample_video.fmt_ctx ∧
    sample_video.fmt_ctx = sample_packet 0 :: [sample_packet 0, sample_packet 0, sample_packet 0] ∧
    yields_frame sample_video.stream_index sample_video.codec sample_video.codec.state
      (sample_packet 0) ∧
    (demux_and_decode sample_video true).1 = some sample_frame :=
  ⟨rfl, rfl, rfl, by decide, rfl⟩

/-- C12, amended: provided `av_frame_alloc` returns a frame, for every
sequence of remaining packets and every decoder state `demux_and_decode`
reads the packets in order and returns the frame of the first packet that
has the selected stream index, has non-zero size and for which submission
and receipt both succeed, leaving as input what follows that packet; a
packet of another stream index leaves `decode` false and the decoder
untouched; a packet that produces no frame is passed over and the loop goes
on with the rest; no frame is returned exactly when no packet of the input
produces one, and the input is then used up.  When `av_frame_alloc` returns
`NULL` no frame is returned and nothing is read. -/
theorem demux_and_decode_returns_first_frame (s : video) :
    (demux_and_decode s true).1 =
      (next_frame s.stream_index s.codec s.codec.state s.fmt_ctx).map Prod.fst ∧
    (∀ f, (demux_and_decode s true).1 = some f →
      ∃ pre p, s.fmt_ctx = pre ++ p :: (demux_and_decode s true).2.fmt_ctx ∧
        yields_frame s.stream_index s.codec
          (decoder_after s.stream_index s.codec s.codec.state pre) p ∧
        f = frame_of s.codec (decoder_after s.stream_index s.codec s.codec.state pre) p ∧
        ∀ pre1 q post1, pre = pre1 ++ q :: post1 →
          ¬ yields_frame s.stream_index s.codec
            (decoder_after s.stream_index s.codec s.codec.state pre1) q) ∧
    ((demux_and_decode s true).1 = none ↔
      ∀ pre p post, s.fmt_ctx = pre ++ p :: post →
        ¬ yields_frame s.stream_index s.codec
          (decoder_after s.stream_index s.codec s.codec.state pre) p) ∧
    ((demux_and_decode s true).1 = none → (demux_and_decode s true).2.fmt_ctx = []) ∧
    (∀ p frame, p.stream_index ≠ s.stream_index →
      decode { s with pkt := p } frame = (false, { s with pkt := p }, frame)) ∧
    (∀ p rest, s.fmt_ctx = p :: rest →
      ¬ yields_frame s.stream_index s.codec s.codec.state p →
      (demux_and_decode s true).1 =
        (demux_and_decode { s with
          fmt_ctx := rest,
          codec := { s.codec with
            state := decoder_step s.stream_index s.codec s.codec.state p } } true).1 ∧
      (demux_and_decode s true).2.fmt_ctx =
        (demux_and_decode { s with
          fmt_ctx := rest,
          codec := { s.codec with
            state := decoder_step s.stream_index s.codec s.codec.state p } } true).2.fmt_ctx) ∧
    demux_and_decode s false = (none, s) := by
  have key : ∀ t : video,
      (demux_and_decode t true).1 =
        (next_frame t.stream_index t.codec t.codec.state t.fmt_ctx).map Prod.fst ∧
      (∀ f post, next_frame t.stream_index t.codec t.codec.state t.fmt_ctx = some (f, post) →
        (demux_and_decode t true).2.fmt_ctx = post) ∧
      (next_frame t.stream_index t.codec t.codec.state t.fmt_ctx = none →
        (demux_and_decode t true).2.fmt_ctx = []) := by
    intro t
    obtain ⟨h1, h2, h3⟩ := demux_loop_spec t.fmt_ctx t blank_frame
    unfold demux_and_decode
    dsimp only
    cases hn : next_frame t.stream_index t.codec t.codec.state t.fmt_ctx with
    | none =>
      rw [hn] at h1
      simp only [Option.isSome_none] at h1
      simp [h1, h3 hn]
    | some r =>
      obtain ⟨f, post⟩ := r
      rw [hn] at h1
      simp only [Option.isSome_some] at h1
      obtain ⟨e1, e2⟩ := h2 f post hn
      simp [h1, e1, e2]
  obtain ⟨k1, k2, k3⟩ := key s
  refine ⟨k1, ?_, ?_, ?_, ?_, ?_, rfl⟩
  · intro f hf
    rw [k1] at hf
    cases hn : next_frame s.stream_index s.codec s.codec.state s.fmt_ctx with
    | none => rw [hn] at hf; cases hf
    | some r =>
      obtain ⟨f', post⟩ := r
      rw [hn] at hf
      simp only [Option.map_some', Option.some.injEq] at hf
      subst hf
      rw [k2 _ post hn]
      exact next_frame_some _ _ _ _ _ _ hn
  · rw [k1, ← next_frame_none_iff]
    cases next_frame s.stream_index s.codec s.codec.state s.fmt_ctx <;> simp
  · intro h
    rw [k1] at h
    apply k3
    cases hn : next_frame s.stream_index s.codec s.codec.state s.fmt_ctx with
    | none => rfl
    | some r => rw [hn] at h; cases h
  · intro p frame hp
    unfold decode
    dsimp only
    by_cases h1 : p.size = 0
    · simp [h1]
    · simp [h1, hp]
  · intro p rest hl hy
    obtain ⟨j1, j2, j3⟩ := key { s with
      fmt_ctx := rest,
      codec := { s.codec with state := decoder_step s.stream_index s.codec s.codec.state p } }
    dsimp only at j1 j2 j3
    rw [next_frame_congr] at j1 j2 j3
    have hstep : next_frame s.stream_index s.codec s.codec.state s.fmt_ctx =
        next_frame s.stream_index s.codec
          (decoder_step s.stream_index s.codec s.codec.state p) rest := by
      rw [hl]
      simp only [next_frame, if_neg hy]
    rw [hstep] at k1 k2 k3
    refine ⟨by rw [k1, j1], ?_⟩
    cases hn : next_frame s.stream_index s.codec
        (decoder_step s.stream_index s.codec s.codec.state p) rest with
    | none => rw [k3 hn, j3 hn]
    | some r =>
      obtain ⟨f, post⟩ := r
      rw [k2 f post hn, j2 f post hn]

/-- C12 amended, at the input of the claim: of two packets, the first of
another stream and the second decodable, `demux_and_decode` returns the
frame of the second and leaves no input. -/
theorem demux_and_decode_returns_first_frame_witness :
    sample_video_two_streams.fmt_ctx = [sample_packet 1, sample_packet 0] ∧
    sample_video_two_streams.stream_index = 0 ∧
    (demux_and_decode sample_video_two_streams true).1 = some sample_frame ∧
    (demux_and_decode sample_video_two_streams true).2.fmt_ctx = [] ∧
    (∃ pre p, sample_video_two_streams.fmt_ctx =
        pre ++ p :: (demux_and_decode sample_video_two_streams true).2.fmt_ctx ∧
      yields_frame sample_video_two_streams.stream_index sample_video_two_streams.codec
        (decoder_after sample_video_two_streams.stream_index sample_video_two_streams.codec
          sample_video_two_streams.codec.state pre) p ∧
      sample_frame = frame_of sample_video_two_streams.codec
        (decoder_after sample_video_two_streams.stream_index sample_video_two_streams.codec
          sample_video_two_streams.codec.state pre) p ∧
      ∀ pre1 q post1, pre = pre1 ++ q :: post1 →
        ¬ yields_frame sample_video_two_streams.stream_index sample_video_two_streams.codec
          (decoder_after sample_video_two_streams.stream_index sample_video_two_streams.codec
            sample_video_two_streams.codec.state pre1) q) :=
  ⟨rfl, rfl, rfl, rfl,
    (demux_and_decode_returns_first_frame sample_video_two_streams).2.1 sample_frame rfl⟩

/-! ## Redraw tick: failures and HDR handle (C13 to C15) -/

/-- The outcome of a redraw tick that obtained a frame, with the HDR step
named: the handle is as the HDR step left it, and the tick ends in one of
four ways. -/
theorem redraw_handler_outcome (a : app) (env : TickEnv) (frame : AVFrame)
    (hframe : (demux_and_decode a.video env.frame_alloc).1 = some frame) :
    (redraw_handler a env).1.hdr_surface =
      (redraw_hdr { a with video := (demux_and_decode a.video env.frame_alloc).2 }
        frame env).1.hdr_surface ∧
    (((redraw_hdr { a with video := (demux_and_decode a.video env.frame_alloc).2 }
          frame env).2.2 = true ∧
        (redraw_handler a env).1.video.buffers = a.video.buffers ∧
        (redraw_handler a env).2 =
          (redraw_hdr { a with video := (demux_and_decode a.video env.frame_alloc).2 }
            frame env).2.1) ∨
     ((redraw_hdr { a with video := (demux_and_decode a.video env.frame_alloc).2 }
          frame env).2.2 = false ∧
        (video_next_buffer a.video).1 = none ∧
        (redraw_handler a env).1.video.buffers = a.video.buffers ∧
        (redraw_handler a env).2 =
          (redraw_hdr { a with video := (demux_and_decode a.video env.frame_alloc).2 }
            frame env).2.1 ++ [Event.schedule_redraw]) ∨
     (∃ i, (redraw_hdr { a with video := (demux_and_decode a.video env.frame_alloc).2 }
          frame env).2.2 = false ∧
        (video_next_buffer a.video).1 = some i ∧ env.map = none ∧
        (redraw_handler a env).1.video.buffers =
          Function.update a.video.buffers i { a.video.buffers i with mmap := none } ∧
        (redraw_handler a env).2 =
          (redraw_hdr { a with video := (demux_and_decode a.video env.frame_alloc).2 }
            frame env).2.1 ++
            [Event.stderr Diag.unable_to_mmap_buffer,
             Event.stderr Diag.failed_to_fill_buffer]) ∨
     (∃ i p, (redraw_hdr { a with video := (demux_and_decode a.video env.frame_alloc).2 }
          frame env).2.2 = false ∧
        (video_next_buffer a.video).1 = some i ∧ env.map = some p ∧
        (redraw_handler a env).1.video.buffers =
          Function.update a.video.buffers i
            { a.video.buffers i with
              mmap := some p,
              mem := apply_stores (a.video.buffers i).mem
                (fill_buffer_stores { a.video.buffers i with mmap := some p } frame),
              busy := 1,
              prev_frame := some frame } ∧
        (redraw_handler a env).2 =
          (redraw_hdr { a with video := (demux_and_decode a.video env.frame_alloc).2 }
            frame env).2.1 ++
            [Event.attach (a.video.buffers i).buffer,
             Event.damage frame.width frame.height,
             Event.commit, Event.schedule_redraw])) := by
  have hb : (redraw_hdr { a with video := (demux_and_decode a.video env.frame_alloc).2 }
      frame env).1.video.buffers = a.video.buffers := by
    rw [redraw_hdr_video]
    exact demux_and_decode_buffers _ _
  have hn := video_next_buffer_congr _ _ hb
  unfold redraw_handler
  dsimp only
  rw [hframe]
  dsimp only
  by_cases hab : (redraw_hdr { a with video := (demux_and_decode a.video env.frame_alloc).2 }
      frame env).2.2 = true
  · simp only [hab, if_true]
    exact ⟨trivial, Or.inl ⟨trivial, hb, trivial⟩⟩
  · simp only [hab]
    rw [hn]
    cases hnb : (video_next_buffer a.video).1 with
    | none =>
      exact ⟨rfl, Or.inr (Or.inl ⟨trivial, rfl, hb, rfl⟩)⟩
    | some i =>
      cases hm : env.map with
      | none =>
        refine ⟨by simp [fill_buffer], Or.inr (Or.inr (Or.inl ⟨i, trivial, rfl, rfl, ?_, ?_⟩))⟩
        · simp [fill_buffer, hb]
        · simp [fill_buffer]
      | some p =>
        refine ⟨by simp [fill_buffer],
          Or.inr (Or.inr (Or.inr ⟨i, p, trivial, rfl, rfl, ?_, ?_⟩))⟩
        · simp [fill_buffer, hb]
        · simp [fill_buffer, hb]

/-- The HDR step prints nothing and touches neither the surface nor the
redraw schedule. -/
theorem redraw_hdr_quiet (a : app) (frame : AVFrame) (env : TickEnv) :
    (∀ d, Event.stderr d ∉ (redraw_hdr a frame env).2.1) ∧
    (∀ w, Event.attach w ∉ (redraw_hdr a frame env).2.1) ∧
    Event.commit ∉ (redraw_hdr a frame env).2.1 ∧
    Event.schedule_redraw ∉ (redraw_hdr a frame env).2.1 := by
  unfold redraw_hdr ensure_hdr_surface destroy_hdr_surface
  dsimp only
  cases frame.mastering_display <;> cases a.hdr_surface <;> cases a.hdr_metadata <;>
    dsimp only <;> (try split_ifs) <;> simp

/-- What the HDR step does to the handle, case by case. -/
theorem redraw_hdr_handle (a : app) (frame : AVFrame) (env : TickEnv) :
    (frame.mastering_display = none →
      (redraw_hdr a frame env).1.hdr_surface = none ∧
      (redraw_hdr a frame env).2.1 =
        (match a.hdr_surface with
         | some h => [Event.hdr_surface_destroy h]
         | none => [])) ∧
    (∀ md, frame.mastering_display = some md →
      (md.has_luminance = 0 ∨ md.has_primaries = 0) →
      (redraw_hdr a frame env).1.hdr_surface = a.hdr_surface ∧
      (redraw_hdr a frame env).2.1 = []) ∧
    (∀ md, frame.mastering_display = some md →
      md.has_luminance ≠ 0 → md.has_primaries ≠ 0 → a.hdr_metadata = none →
      (redraw_hdr a frame env).1.hdr_surface = a.hdr_surface ∧
      (redraw_hdr a frame env).2.1 = [Event.assert_failed] ∧
      (redraw_hdr a frame env).2.2 = true) ∧
    (∀ md, frame.mastering_display = some md →
      md.has_luminance ≠ 0 → md.has_primaries ≠ 0 → a.hdr_metadata.isSome = true →
      (redraw_hdr a frame env).2.2 = false ∧
      (∀ h, a.hdr_surface = some h →
        (redraw_hdr a frame env).1.hdr_surface = some h ∧
        ∀ h2, Event.get_hdr_surface h2 ∉ (redraw_hdr a frame env).2.1) ∧
      (a.hdr_surface = none →
        (redraw_hdr a frame env).1.hdr_surface = some env.hdr_surface ∧
        Event.get_hdr_surface env.hdr_surface ∈ (redraw_hdr a frame env).2.1)) := by
  unfold redraw_hdr ensure_hdr_surface destroy_hdr_surface
  dsimp only
  refine ⟨?_, ?_, ?_, ?_⟩
  · intro h
    rw [h]
    cases hs : a.hdr_surface <;> simp [hs]
  · intro md h hz
    rw [h]
    have : ¬ (md.has_luminance ≠ 0 ∧ md.has_primaries ≠ 0) := by
      rintro ⟨h1, h2⟩
      rcases hz with hz | hz
      · exact h1 hz
      · exact h2 hz
    simp only [this, if_false, and_self]
  · intro md h h1 h2 hm
    rw [h]
    simp [h1, h2, hm]
  · intro md h h1 h2 hm
    rw [h]
    cases hmd : a.hdr_metadata with
    | none => rw [hmd] at hm; cases hm
    | some g =>
      cases hs : a.hdr_surface with
      | none => simp [h1, h2]
      | some x => simp [h1, h2, hs]

/-- A tick prints "failed to fill buffer" only when it obtained a frame, the
HDR step did not abort, a free slot was found and the mapping failed; the
tick then changes nothing in the pool but the `mmap` pointer of that slot,
and its calls are those of the HDR step followed by the two messages. -/
theorem redraw_handler_fill_failure (a : app) (env : TickEnv)
    (hfail : Event.stderr Diag.failed_to_fill_buffer ∈ (redraw_handler a env).2) :
    ∃ frame i hdr, (demux_and_decode a.video env.frame_alloc).1 = some frame ∧
      (video_next_buffer a.video).1 = some i ∧ env.map = none ∧
      (redraw_handler a env).1.video.buffers =
        Function.update a.video.buffers i { a.video.buffers i with mmap := none } ∧
      (redraw_handler a env).2 =
        hdr ++ [Event.stderr Diag.unable_to_mmap_buffer,
                Event.stderr Diag.failed_to_fill_buffer] ∧
      (∀ w, Event.attach w ∉ hdr) ∧ Event.commit ∉ hdr ∧ Event.schedule_redraw ∉ hdr := by
  cases hd : (demux_and_decode a.video env.frame_alloc).1 with
  | none =>
    exfalso
    revert hfail
    unfold redraw_handler
    dsimp only
    rw [hd]
    simp
  | some frame =>
    obtain ⟨hq1, hq2, hq3, hq4⟩ := redraw_hdr_quiet
      { a with video := (demux_and_decode a.video env.frame_alloc).2 } frame env
    obtain ⟨-, hcase⟩ := redraw_handler_outcome a env frame hd
    rcases hcase with ⟨-, -, hev⟩ | ⟨-, -, -, hev⟩ | ⟨i, -, hn, hm, hb, hev⟩ |
      ⟨i, p, -, -, -, -, hev⟩
    · rw [hev] at hfail; exact absurd hfail (hq1 _)
    · rw [hev] at hfail; simp at hfail; exact absurd hfail (hq1 _)
    · exact ⟨frame, i, _, rfl, hn, hm, hb, hev, hq2, hq3, hq4⟩
    · rw [hev] at hfail; simp at hfail; exact absurd hfail (hq1 _)

/-- The HDR step aborts the tick only on a frame with complete
mastering-display metadata while the global `hdr_metadata` is unbound. -/
theorem redraw_hdr_no_abort (a : app) (frame : AVFrame) (env : TickEnv)
    (hassert : ∀ md, frame.mastering_display = some md →
      md.has_luminance ≠ 0 → md.has_primaries ≠ 0 → a.hdr_metadata.isSome = true) :
    (redraw_hdr a frame env).2.2 = false := by
  unfold redraw_hdr ensure_hdr_surface
  dsimp only
  cases hmd : frame.mastering_display with
  | none => rfl
  | some md =>
    dsimp only
    by_cases hflags : md.has_luminance ≠ 0 ∧ md.has_primaries ≠ 0
    · have hm := hassert md hmd hflags.1 hflags.2
      cases hg : a.hdr_metadata with
      | none => rw [hg] at hm; cases hm
      | some g =>
        cases hx : a.hdr_surface <;> simp [hflags.1, hflags.2]
    · simp only [hflags, if_false]

/-- C13: for every pool state with a free slot `i` (the one
`video_next_buffer` returns), in a redraw tick in which mapping the memory
of the slot returns no mapping: no buffer is attached and nothing is
committed; slot `i` keeps `busy = 0`, the `prev_frame` it had (none, when
none was attached) and its memory; every other slot is unchanged.  When the
tick reaches `fill_buffer` (a frame was decoded and the `assert` of
`ensure_hdr_surface` holds), `fill_buffer` returns 0 without a store, the
tick ends with the two messages, and slot `i` is as before but for its
`mmap` pointer, which is `NULL`. -/
theorem redraw_handler_map_failure_submits_nothing (a : app) (env : TickEnv)
    (i : Fin NUM_BUFFERS)
    (hfree : (video_next_buffer a.video).1 = some i)
    (hmap : env.map = none) :
    (a.video.buffers i).busy = 0 ∧
    (∀ w, Event.attach w ∉ (redraw_handler a env).2) ∧
    Event.commit ∉ (redraw_handler a env).2 ∧
    ((redraw_handler a env).1.video.buffers i).busy = 0 ∧
    ((redraw_handler a env).1.video.buffers i).prev_frame = (a.video.buffers i).prev_frame ∧
    ((a.video.buffers i).prev_frame = none →
      ((redraw_handler a env).1.video.buffers i).prev_frame = none) ∧
    ((redraw_handler a env).1.video.buffers i).mem = (a.video.buffers i).mem ∧
    (∀ j, j ≠ i → (redraw_handler a env).1.video.buffers j = a.video.buffers j) ∧
    (∀ frame, (demux_and_decode a.video env.frame_alloc).1 = some frame →
      (∀ md, frame.mastering_display = some md →
        md.has_luminance ≠ 0 → md.has_primaries ≠ 0 → a.hdr_metadata.isSome = true) →
      (fill_buffer (a.video.buffers i) frame env.map).1 = 0 ∧
      (fill_buffer (a.video.buffers i) frame env.map).2.1.mem = (a.video.buffers i).mem ∧
      (redraw_handler a env).1.video.buffers i = { a.video.buffers i with mmap := none } ∧
      (∃ hdr, (redraw_handler a env).2 =
          hdr ++ [Event.stderr Diag.unable_to_mmap_buffer,
                  Event.stderr Diag.failed_to_fill_buffer] ∧
        (∀ w, Event.attach w ∉ hdr) ∧ Event.commit ∉ hdr ∧ Event.schedule_redraw ∉ hdr)) := by
  have hbusy : (a.video.buffers i).busy = 0 :=
    ((next_buffer_loop_some a.video.buffers i NUM_BUFFERS 0).1 hfree).2.2.1
  -- the pool and the calls of the tick, in each way the tick can end
  have hall : ((redraw_handler a env).1.video.buffers = a.video.buffers ∨
        (redraw_handler a env).1.video.buffers =
          Function.update a.video.buffers i { a.video.buffers i with mmap := none }) ∧
      (∀ w, Event.attach w ∉ (redraw_handler a env).2) ∧
      Event.commit ∉ (redraw_handler a env).2 := by
    cases hd : (demux_and_decode a.video env.frame_alloc).1 with
    | none =>
      have hb := demux_and_decode_buffers a.video env.frame_alloc
      unfold redraw_handler
      dsimp only
      rw [hd]
      dsimp only
      exact ⟨Or.inl hb, by simp, by simp⟩
    | some frame =>
      obtain ⟨-, hq2, hq3, -⟩ := redraw_hdr_quiet
        { a with video := (demux_and_decode a.video env.frame_alloc).2 } frame env
      obtain ⟨-, hcase⟩ := redraw_handler_outcome a env frame hd
      rcases hcase with ⟨-, hb, hev⟩ | ⟨-, -, hb, hev⟩ | ⟨k, -, hn, -, hb, hev⟩ |
        ⟨k, p, -, -, hm, -, -⟩
      · rw [hev]; exact ⟨Or.inl hb, hq2, hq3⟩
      · rw [hev]
        refine ⟨Or.inl hb, ?_, ?_⟩
        · intro w hw; simp at hw; exact hq2 w hw
        · intro hc; simp at hc; exact hq3 hc
      · have hk : k = i := by
          rw [hfree] at hn
          exact (Option.some.inj hn).symm
        subst hk
        rw [hev]
        refine ⟨Or.inr hb, ?_, ?_⟩
        · intro w hw; simp at hw; exact hq2 w hw
        · intro hc; simp at hc; exact hq3 hc
      · rw [hmap] at hm; cases hm
  obtain ⟨hpool, hatt, hcom⟩ := hall
  have hslot : (redraw_handler a env).1.video.buffers i = a.video.buffers i ∨
      (redraw_handler a env).1.video.buffers i = { a.video.buffers i with mmap := none } := by
    rcases hpool with h | h
    · left; rw [h]
    · right; rw [h, Function.update_same]
  refine ⟨hbusy, hatt, hcom, ?_, ?_, ?_, ?_, ?_, ?_⟩
  · rcases hslot with h | h <;> rw [h] <;> exact hbusy
  · rcases hslot with h | h <;> rw [h]
  · intro hp
    rcases hslot with h | h <;> rw [h] <;> exact hp
  · rcases hslot with h | h <;> rw [h]
  · intro j hj
    rcases hpool with h | h
    · rw [h]
    · rw [h, Function.update_noteq hj]
  · intro frame hd hassert
    have hflag := redraw_hdr_no_abort
      { a with video := (demux_and_decode a.video env.frame_alloc).2 } frame env hassert
    obtain ⟨-, hq2, hq3, hq4⟩ := redraw_hdr_quiet
      { a with video := (demux_and_decode a.video env.frame_alloc).2 } frame env
    obtain ⟨-, hcase⟩ := redraw_handler_outcome a env frame hd
    refine ⟨by rw [hmap]; rfl, by rw [hmap]; rfl, ?_⟩
    rcases hcase with ⟨hab, -, -⟩ | ⟨-, hn, -, -⟩ | ⟨k, -, hn, -, hb, hev⟩ |
      ⟨k, p, -, -, hm, -, -⟩
    · rw [hflag] at hab; cases hab
    · rw [hfree] at hn; cases hn
    · have hk : k = i := by
        rw [hfree] at hn
        exact (Option.some.inj hn).symm
      subst hk
      exact ⟨by rw [hb, Function.update_same], _, hev, hq2, hq3, hq4⟩
    · rw [hmap] at hm; cases hm

/-- C13, at a concrete input: a tick of `sample_app`, whose slot 0 is free,
in which `gbm_bo_map` returns no mapping; the tick decodes `sample_frame`,
reaches `fill_buffer` and ends with the two messages. -/
theorem redraw_handler_map_failure_submits_nothing_witness :
    (video_next_buffer sample_app.video).1 = some 0 ∧
    ({ sample_env with map := none } : TickEnv).map = none ∧
    (demux_and_decode sample_app.video
      ({ sample_env with map := none } : TickEnv).frame_alloc).1 = some sample_frame ∧
    (redraw_handler sample_app { sample_env with map := none }).2 =
      [Event.stderr Diag.unable_to_mmap_buffer, Event.stderr Diag.failed_to_fill_buffer] ∧
    (∀ w, Event.attach w ∉ (redraw_handler sample_app { sample_env with map := none }).2) ∧
    Event.commit ∉ (redraw_handler sample_app { sample_env with map := none }).2 ∧
    ((redraw_handler sample_app { sample_env with map := none }).1.video.buffers 0).busy = 0 ∧
    ((redraw_handler sample_app { sample_env with map := none }).1.video.buffers 0).mem =
      (sample_app.video.buffers 0).mem ∧
    (redraw_handler sample_app { sample_env with map := none }).1.video.buffers 0 =
      { sample_app.video.buffers 0 with mmap := none } ∧
    (∀ j, j ≠ 0 →
      (redraw_handler sample_app { sample_env with map := none }).1.video.buffers j =
        sample_app.video.buffers j) :=
  ⟨by decide, rfl, rfl, by decide,
    (redraw_handler_map_failure_submits_nothing sample_app { sample_env with map := none } 0
      (by decide) rfl).2.1,
    (redraw_handler_map_failure_submits_nothing sample_app { sample_env with map := none } 0
      (by decide) rfl).2.2.1,
    (redraw_handler_map_failure_submits_nothing sample_app { sample_env with map := none } 0
      (by decide) rfl).2.2.2.1,
    (redraw_handler_map_failure_submits_nothing sample_app { sample_env with map := none } 0
      (by decide) rfl).2.2.2.2.2.2.1,
    ((redraw_handler_map_failure_submits_nothing sample_app { sample_env with map := none } 0
      (by decide) rfl).2.2.2.2.2.2.2.2 sample_frame rfl
        (fun md h => by cases h)).2.2.1,
    (redraw_handler_map_failure_submits_nothing sample_app { sample_env with map := none } 0
      (by decide) rfl).2.2.2.2.2.2.2.1⟩

/-- C14 fails on the code: a tick in which `fill_buffer` fails returns
right after the message, without `widget_schedule_redraw`: in every such
tick no redraw is scheduled.  For `sample_app` with a failing mapping the
calls of the tick are the two messages and nothing else, and the stream
has moved past the packet of the dropped frame.  The sibling path taken
when no slot is free does schedule a redraw before it returns. -/
theorem redraw_handler_map_failure_schedules_nothing :
    (∀ (a : app) (env : TickEnv),
      Event.stderr Diag.failed_to_fill_buffer ∈ (redraw_handler a env).2 →
      Event.schedule_redraw ∉ (redraw_handler a env).2) ∧
    (redraw_handler sample_app { sample_env with map := none }).2 =
      [Event.stderr Diag.unable_to_mmap_buffer, Event.stderr Diag.failed_to_fill_buffer] ∧
    (redraw_handler sample_app { sample_env with map := none }).1.video.fmt_ctx.length = 3 ∧
    sample_app.video.fmt_ctx.length = 4 ∧
    ((video_next_buffer
        (redraw_handler (redraw_handler (redraw_handler sample_app sample_env).1
          sample_env).1 sample_env).1.video).1 = none ∧
      (redraw_handler
        (redraw_handler (redraw_handler (redraw_handler sample_app sample_env).1
          sample_env).1 sample_env).1 sample_env).2 = [Event.schedule_redraw]) := by
  refine ⟨?_, by decide, by decide, by decide, by decide, by decide⟩
  intro a env hfail
  obtain ⟨frame, i, hdr, -, -, -, -, hev, -, -, h3⟩ := redraw_handler_fill_failure a env hfail
  rw [hev]
  simp
  exact h3

/-- C15, as stated, fails.  (1) A frame that carries mastering-display
metadata with `has_primaries = 0` passes the guard
`has_luminance && has_primaries` by: the handle, absent before the tick, is
still absent after it.  (2) With complete metadata but the global
`hdr_metadata` unbound, the `assert` of `ensure_hdr_surface` fails and no
handle is created. -/
theorem redraw_handler_hdr_counterexample :
    ((demux_and_decode
        { sample_video with codec := sample_flag_codec 0 1 } sample_env.frame_alloc).1.map
          (fun f => f.mastering_display.isSome) = some true ∧
      ({ sample_app with
          video := { sample_video with codec := sample_flag_codec 0 1 } } : app).hdr_surface
        = none ∧
      (redraw_handler
        { sample_app with video := { sample_video with codec := sample_flag_codec 0 1 } }
        sample_env).1.hdr_surface = none) ∧
    ((demux_and_decode
        { sample_video with codec := sample_flag_codec 1 1 } sample_env.frame_alloc).1.map
          (fun f => f.mastering_display.isSome) = some true ∧
      (redraw_handler
        { sample_app with
          hdr_metadata := none,
          video := { sample_video with codec := sample_flag_codec 1 1 } }
        sample_env).1.hdr_surface = none ∧
      (redraw_handler
        { sample_app with
          hdr_metadata := none,
          video := { sample_video with codec := sample_flag_codec 1 1 } }
        sample_env).2 = [Event.assert_failed]) := by
  decide

/-- C15, amended: for every prior state of the handle `app->hdr_surface`,
after a redraw tick whose decoded frame carries mastering-display metadata
with both `has_luminance` and `has_primaries` set, the global
`hdr_metadata` being bound, the handle exists: the same handle if there was
one (none is requested), the newly requested one otherwise; metadata with
either flag clear leaves the handle as it was; after a tick whose frame
carries no such metadata the handle does not exist: it is destroyed if
there was one, and nothing is destroyed otherwise. -/
theorem redraw_handler_hdr_surface (a : app) (env : TickEnv) (frame : AVFrame)
    (hframe : (demux_and_decode a.video env.frame_alloc).1 = some frame) :
    (∀ md, frame.mastering_display = some md →
      md.has_luminance ≠ 0 → md.has_primaries ≠ 0 → a.hdr_metadata.isSome = true →
      (redraw_handler a env).1.hdr_surface.isSome = true ∧
      (∀ h, a.hdr_surface = some h →
        (redraw_handler a env).1.hdr_surface = some h ∧
        ∀ h2, Event.get_hdr_surface h2 ∉ (redraw_handler a env).2) ∧
      (a.hdr_surface = none →
        (redraw_handler a env).1.hdr_surface = some env.hdr_surface ∧
        Event.get_hdr_surface env.hdr_surface ∈ (redraw_handler a env).2)) ∧
    (∀ md, frame.mastering_display = some md →
      (md.has_luminance = 0 ∨ md.has_primaries = 0) →
      (redraw_handler a env).1.hdr_surface = a.hdr_surface ∧
      ∀ h, Event.get_hdr_surface h ∉ (redraw_handler a env).2 ∧
        Event.hdr_surface_destroy h ∉ (redraw_handler a env).2) ∧
    (frame.mastering_display = none →
      (redraw_handler a env).1.hdr_surface = none ∧
      (∀ h, a.hdr_surface = some h →
        Event.hdr_surface_destroy h ∈ (redraw_handler a env).2) ∧
      (a.hdr_surface = none →
        ∀ h, Event.hdr_surface_destroy h ∉ (redraw_handler a env).2)) := by
  obtain ⟨hs, hcase⟩ := redraw_handler_outcome a env frame hframe
  obtain ⟨g1, g2, -, g4⟩ := redraw_hdr_handle
    { a with video := (demux_and_decode a.video env.frame_alloc).2 } frame env
  have htail : ∃ tail, (redraw_handler a env).2 =
      (redraw_hdr { a with video := (demux_and_decode a.video env.frame_alloc).2 }
        frame env).2.1 ++ tail ∧
      (∀ h, Event.get_hdr_surface h ∉ tail) ∧ (∀ h, Event.hdr_surface_destroy h ∉ tail) := by
    rcases hcase with ⟨-, -, hev⟩ | ⟨-, -, -, hev⟩ | ⟨i, -, -, -, -, hev⟩ |
      ⟨i, p, -, -, -, -, hev⟩
    · exact ⟨[], by rw [hev, List.append_nil], by simp, by simp⟩
    · exact ⟨_, hev, by simp, by simp⟩
    · exact ⟨_, hev, by simp, by simp⟩
    · exact ⟨_, hev, by simp, by simp⟩
  obtain ⟨tail, hev, t1, t2⟩ := htail
  refine ⟨?_, ?_, ?_⟩
  · intro md hmd h1 h2 hm
    obtain ⟨-, k1, k2⟩ := g4 md hmd h1 h2 hm
    refine ⟨?_, ?_, ?_⟩
    · rw [hs]
      rcases Option.eq_none_or_eq_some a.hdr_surface with hx | ⟨x, hx⟩
      · rw [(k2 hx).1]; rfl
      · rw [(k1 x hx).1]; rfl
    · intro h hh
      refine ⟨by rw [hs]; exact (k1 h hh).1, ?_⟩
      intro h2 hin
      rw [hev, List.mem_append] at hin
      rcases hin with hin | hin
      · exact (k1 h hh).2 h2 hin
      · exact t1 h2 hin
    · intro hh
      refine ⟨by rw [hs]; exact (k2 hh).1, ?_⟩
      rw [hev, List.mem_append]
      exact Or.inl (k2 hh).2
  · intro md hmd hz
    obtain ⟨k1, k2⟩ := g2 md hmd hz
    refine ⟨by rw [hs]; exact k1, ?_⟩
    intro h
    rw [hev, k2]
    exact ⟨t1 h, t2 h⟩
  · intro hmd
    obtain ⟨k1, k2⟩ := g1 hmd
    refine ⟨by rw [hs]; exact k1, ?_, ?_⟩
    · intro h hh
      rw [hev, k2]
      simp only [hh]
      simp
    · intro hh h
      rw [hev, k2]
      simp only [hh]
      exact t2 h

/-- C15 amended, at the input of the claim: the first frame of
`sample_hdr_app` carries complete metadata and the second none; the handle,
absent at first, is present after the first tick and absent after the
second, which destroys it. -/
theorem redraw_handler_hdr_surface_witness :
    (demux_and_decode sample_hdr_app.video sample_env.frame_alloc).1 =
      some (sample_hdr_frame 1 1) ∧
    (demux_and_decode (redraw_handler sample_hdr_app sample_env).1.video
      sample_env.frame_alloc).1 = some sample_frame ∧
    sample_hdr_app.hdr_surface = none ∧
    (redraw_handler sample_hdr_app sample_env).1.hdr_surface = some sample_env.hdr_surface ∧
    (redraw_handler (redraw_handler sample_hdr_app sample_env).1 sample_env).1.hdr_surface
      = none ∧
    Event.hdr_surface_destroy sample_env.hdr_surface ∈
      (redraw_handler (redraw_handler sample_hdr_app sample_env).1 sample_env).2 :=
  ⟨rfl, rfl, rfl,
    (((redraw_handler_hdr_surface sample_hdr_app sample_env (sample_hdr_frame 1 1) rfl).1
      (sample_mastering 1 1) rfl (by decide) (by decide) rfl).2.2 rfl).1,
    ((redraw_handler_hdr_surface (redraw_handler sample_hdr_app sample_env).1 sample_env
      sample_frame rfl).2.2 rfl).1,
    ((redraw_handler_hdr_surface (redraw_handler sample_hdr_app sample_env).1 sample_env
      sample_frame rfl).2.2 rfl).2.1 sample_env.hdr_surface (by decide)⟩

/-! ## Stream startup (C11) -/

theorem sentinel_as_int : to_int32 (to_uint32 (-1)) = -1 := by decide

/-- When `video_open` succeeds and all three buffers are created,
`video_create` returns the application with that pool, whatever the
format. -/
theorem video_create_some (env : CreateEnv) (s : video) (fmt : Int)
    (bufs : Fin NUM_BUFFERS → buffer)
    (h1 : video_open env.video_open = some s)
    (hf : to_int32 (av_format_to_drm_format s.codec.pix_fmt) = fmt)
    (h2 : create_buffers env.gbm s.codec.width s.codec.height fmt s.buffers NUM_BUFFERS 0 =
      some bufs) :
    video_create env =
      some { video := { s with buffers := bufs },
             subtitle := if env.option_subtitle then some subtitle_create else none,
             colorspace := env.colorspace, hdr_metadata := env.hdr_metadata,
             hdr_surface := none, dmabuf := env.dmabuf } := by
  unfold video_create
  rw [h1]
  dsimp only
  rw [hf, h2]

/-- C11 fails on the code: `video_create` never inspects what
`av_format_to_drm_format` returns.  For every decoder format outside the
table the mapper returns `(uint32_t)-1`, and in a startup where every call
succeeds `video_create` still returns an application: it passes the value,
as the `int` -1, to `create_dmabuf_buffer`, whose `default` case allocates a
`GBM_FORMAT_XRGB8888` buffer of the size of the video with a single plane,
so all three slots of the pool are constructed.  Startup does fail when a
buffer allocation fails. -/
theorem video_create_accepts_unsupported_format (n : Nat) :
    av_format_to_drm_format (AVPixelFormat.other n) = to_uint32 (-1) ∧
    to_int32 (to_uint32 (-1)) = -1 ∧
    (∃ a, video_create (sample_create_env (AVPixelFormat.other n)) = some a ∧
      ∀ i, (a.video.buffers i).format = -1 ∧ (a.video.buffers i).buffer = some i.val ∧
        (a.video.buffers i).width = 4 ∧ (a.video.buffers i).height = 2 ∧
        (a.video.buffers i).stride = 16) ∧
    dmabuf_geometry (-1) 4 2 = (GBM_FORMAT_XRGB8888, 4, 2, 1) ∧
    dmabuf_planes (-1) 16 2 = [(0, 0, 16)] ∧
    (video_create
      { sample_create_env (AVPixelFormat.other 2) with
        gbm := fun i => { sample_gbm_env i.val with bo := none } }).isNone = true := by
  have hsome : (create_buffers (fun i => sample_gbm_env i.val) 4 2 (-1)
      (fun _ => zero_buffer) NUM_BUFFERS 0).isSome = true := by decide
  have htup : ∀ i : Fin NUM_BUFFERS,
      (create_buffers (fun i => sample_gbm_env i.val) 4 2 (-1)
        (fun _ => zero_buffer) NUM_BUFFERS 0).map
        (fun b => ((b i).format, (b i).buffer, (b i).width, (b i).height, (b i).stride)) =
      some (-1, some i.val, 4, 2, 16) := by decide
  obtain ⟨bufs, hb⟩ := Option.isSome_iff_exists.1 hsome
  have hv := video_create_some (sample_create_env (AVPixelFormat.other n))
    (sample_opened (AVPixelFormat.other n)) (-1) bufs rfl sentinel_as_int hb
  refine ⟨rfl, sentinel_as_int, ⟨_, hv, ?_⟩, by decide, by decide, by decide⟩
  intro i
  have ht := htup i
  rw [hb] at ht
  simp only [Option.map_some', Option.some.injEq, Prod.mk.injEq] at ht
  exact ht

end SimpleHdrVideo
